import Mathlib

/-!
Verification development for the PAI voice notification server
(`voice-server/server.ts`, cascading-TTS variant) and, where noted, the
spec-described completion extractor.  Strings are embedded as `List Char`
(JS strings; whitespace is modelled by the ASCII white-space characters).
All definitions are translated from the TypeScript source; the few
definitions modelled from the spec say so in their doc comment.
-/

/-- White-space test used to model the JS `\s` class and `String.trim`
(restricted to the ASCII white-space characters). -/
def isSpaceChar (c : Char) : Bool :=
  c = ' ' || c = '\t' || c = '\n' || c = '\r' || c = '\x0b' || c = '\x0c'

/-- Word-character test modelling the JS `\w` class. -/
def isWordChar (c : Char) : Bool :=
  ('a' ≤ c && c ≤ 'z') || ('A' ≤ c && c ≤ 'Z') || ('0' ≤ c && c ≤ '9') || c = '_'

/-- Lower-case ASCII letter test. -/
def isLowerAlpha (c : Char) : Bool := 'a' ≤ c && c ≤ 'z'

/-- Upper-case variant of a lower-case ASCII letter. -/
def upperOf (c : Char) : Char := Char.ofNat (c.toNat - 32)

/-- Case-insensitive match of one pattern character (the pattern is written
in lower case, as in the source's `/<script/gi`): the subject character must
equal the pattern character or its upper-case variant. -/
def ciMatch (p c : Char) : Bool := c = p || (isLowerAlpha p && c = upperOf p)

/-- Case-insensitive prefix test for a lower-case pattern. -/
def isPrefixCI : List Char → List Char → Bool
  | [], _ => true
  | _ :: _, [] => false
  | p :: ps, c :: cs => ciMatch p c && isPrefixCI ps cs

/-- Case-insensitive substring test (scans every start position). -/
def hasSubstrCI (pat : List Char) : List Char → Bool
  | [] => isPrefixCI pat []
  | c :: cs => isPrefixCI pat (c :: cs) || hasSubstrCI pat cs

/-- Exact substring test, modelling JS `String.prototype.includes`. -/
def hasSubstr (pat : List Char) : List Char → Bool
  | [] => List.isPrefixOf pat []
  | c :: cs => List.isPrefixOf pat (c :: cs) || hasSubstr pat cs

/-- Remove the first occurrence of `pat`, modelling JS
`String.prototype.replace` with a plain-string pattern and `''` replacement. -/
def removeFirst (pat : List Char) : List Char → List Char
  | [] => []
  | c :: cs =>
    if List.isPrefixOf pat (c :: cs) then (c :: cs).drop pat.length
    else c :: removeFirst pat cs

/-- Trim white space from both ends, modelling JS `String.prototype.trim`. -/
def trimChars (l : List Char) : List Char :=
  ((l.dropWhile isSpaceChar).reverse.dropWhile isSpaceChar).reverse

/-- The pattern of `/<script/gi` in `sanitizeForSpeech`. -/
def scriptPat : List Char := "<script".data

/-- Global case-insensitive removal of `<script`, modelling
`.replace(/<script/gi, '')` (one left-to-right scan, non-overlapping).
The scan is fuelled so that it is structurally recursive; the wrapper
supplies enough fuel for the whole input, and exhausted fuel returns the
rest unchanged. -/
def stripScriptTagGo : Nat → List Char → List Char
  | 0, l => l
  | _ + 1, [] => []
  | fuel + 1, c :: cs =>
    if isPrefixCI scriptPat (c :: cs) then stripScriptTagGo fuel (cs.drop 6)
    else c :: stripScriptTagGo fuel cs

/-- Wrapper of `stripScriptTagGo` at full fuel. -/
def stripScriptTag (l : List Char) : List Char := stripScriptTagGo l.length l

/-- Global removal of `../`, modelling `.replace(/\.\.\//g, '')` (fuelled
scan, see `stripScriptTagGo`). -/
def stripDotDotSlashGo : Nat → List Char → List Char
  | 0, l => l
  | _ + 1, [] => []
  | fuel + 1, c :: cs =>
    if List.isPrefixOf "../".data (c :: cs) then stripDotDotSlashGo fuel (cs.drop 2)
    else c :: stripDotDotSlashGo fuel cs

/-- Wrapper of `stripDotDotSlashGo` at full fuel. -/
def stripDotDotSlash (l : List Char) : List Char := stripDotDotSlashGo l.length l

/-- The character class of `.replace(/[;&|><`$\\]/g, '')`. -/
def metaChars : List Char := [';', '&', '|', '>', '<', Char.ofNat 96, '$', '\\']

/-- Removal of shell metacharacters, modelling `.replace(/[;&|><`$\\]/g, '')`. -/
def removeMeta (l : List Char) : List Char := l.filter (fun c => !(metaChars.contains c))

/-- One-character-delimited unquoting, modelling `.replace(/\*([^*]+)\*/g, '$1')`
(and the analogous back-tick rule) by a left-to-right scan with the regex's
greedy semantics. -/
def unquote1Go (d : Char) : Nat → List Char → List Char
  | 0, l => l
  | _ + 1, [] => []
  | fuel + 1, c :: cs =>
    if c = d then
      let inner := cs.takeWhile (fun x => x ≠ d)
      let after := cs.dropWhile (fun x => x ≠ d)
      match after with
      | _ :: as =>
        if inner = [] then c :: unquote1Go d fuel cs
        else inner ++ unquote1Go d fuel as
      | [] => c :: unquote1Go d fuel cs
    else c :: unquote1Go d fuel cs

/-- Wrapper of `unquote1Go` at full fuel. -/
def unquote1 (d : Char) (l : List Char) : List Char := unquote1Go d l.length l

/-- Two-character-delimited unquoting, modelling
`.replace(/\*\*([^*]+)\*\*/g, '$1')` by a left-to-right scan with the regex's
greedy semantics. -/
def unquote2Go (d : Char) : Nat → List Char → List Char
  | 0, l => l
  | _ + 1, [] => []
  | _ + 1, [c] => [c]
  | fuel + 1, c1 :: c2 :: cs =>
    if c1 = d && c2 = d then
      let inner := cs.takeWhile (fun x => x ≠ d)
      let after := cs.dropWhile (fun x => x ≠ d)
      match after with
      | _ :: a2 :: as =>
        if inner = [] || !(a2 = d) then c1 :: unquote2Go d fuel (c2 :: cs)
        else inner ++ unquote2Go d fuel as
      | _ => c1 :: unquote2Go d fuel (c2 :: cs)
    else c1 :: unquote2Go d fuel (c2 :: cs)

/-- Wrapper of `unquote2Go` at full fuel. -/
def unquote2 (d : Char) (l : List Char) : List Char := unquote2Go d l.length l

/-- Heading-markup removal, modelling `.replace(/#{1,6}\s+/g, '')`: a run of
at most six `#` followed by white space is deleted together with that
(maximal) white-space run; longer `#` runs keep their leading surplus. -/
def unheadingGo : Nat → List Char → List Char
  | 0, l => l
  | _ + 1, [] => []
  | fuel + 1, c :: cs =>
    if c = '#' then
      let hashes := cs.takeWhile (fun x => x = '#')
      let rest := cs.dropWhile (fun x => x = '#')
      match rest with
      | t :: ts =>
        if hashes.length + 1 ≤ 6 && isSpaceChar t then
          unheadingGo fuel (ts.dropWhile isSpaceChar)
        else c :: unheadingGo fuel cs
      | [] => c :: unheadingGo fuel cs
    else c :: unheadingGo fuel cs

/-- Wrapper of `unheadingGo` at full fuel. -/
def unheading (l : List Char) : List Char := unheadingGo l.length l

/-- Sanitizer, translated from `sanitizeForSpeech` in `server.ts`: strips
`<script` openers, `../` sequences and shell metacharacters, unwraps bold,
italic and inline-code markup, deletes heading markers, trims, and truncates
to 500 characters. -/
def sanitizeForSpeech (input : List Char) : List Char :=
  (trimChars (unheading (unquote1 (Char.ofNat 96) (unquote1 '*' (unquote2 '*'
      (removeMeta (stripDotDotSlash (stripScriptTag input)))))))).take 500

/-- A JavaScript runtime value, as far as the server inspects one: the
`typeof`-string test and JS truthiness are all the code uses. -/
inductive JSVal where
  | undef
  | jsNull
  | bool (b : Bool)
  | num (n : Int)
  | str (s : List Char)
  | obj
deriving DecidableEq

/-- JS truthiness of a value. -/
def JSVal.truthy : JSVal → Bool
  | .undef => false
  | .jsNull => false
  | .bool b => b
  | .num n => n ≠ 0
  | .str s => s ≠ []
  | .obj => true

/-- The `typeof v === 'string'` test. -/
def JSVal.isStr : JSVal → Bool
  | .str _ => true
  | _ => false

/-- The `a || b` JS idiom: `b` when `a` is falsy. -/
def jsOr (a b : JSVal) : JSVal := if a.truthy then a else b

/-- Result record of `validateInput`. -/
structure ValidationResult where
  valid : Bool
  error : Option (List Char) := none
  sanitized : Option (List Char) := none
deriving DecidableEq

/-- Input validation, translated from `validateInput` in `server.ts`. -/
def validateInput (input : JSVal) : ValidationResult :=
  match input with
  | .str s =>
    if s = [] then { valid := false, error := some "Invalid input type".data }
    else if s.length > 500 then
      { valid := false, error := some "Message too long (max 500 characters)".data }
    else
      let sanitized := sanitizeForSpeech s
      if sanitized = [] then
        { valid := false,
          error := some "Message contains no valid content after sanitization".data }
      else { valid := true, sanitized := some sanitized }
  | _ => { valid := false, error := some "Invalid input type".data }

/-- The `emojiToEmotion` table of `extractEmotionalMarker`, with each emoji
as its character sequence (the caution sign carries a variation selector). -/
def emojiEmotionTable : List (List Char × List Char) :=
  [(['💥'], "excited".data), (['🎉'], "celebration".data), (['💡'], "insight".data),
   (['🎨'], "creative".data), (['✨'], "success".data), (['📈'], "progress".data),
   (['🔍'], "investigating".data), (['🐛'], "debugging".data), (['📚'], "learning".data),
   (['🤔'], "pondering".data), (['🎯'], "focused".data),
   (['⚠', '️'], "caution".data), (['🚨'], "urgent".data)]

/-- Match one of the table's emojis at the head of the input; on success
return the emoji, its emotion name and the remaining input. -/
def tryEmoji (l : List Char) : Option (List Char × List Char × List Char) :=
  emojiEmotionTable.findSome? fun p =>
    if List.isPrefixOf p.1 l then some (p.1, p.2, l.drop p.1.length) else none

/-- Match the tag regex `/\[(emoji)\s+(\w+)\]/` at the head of the input;
on success return the whole matched text, the emoji's table emotion and the
captured label. -/
def matchTagAt (l : List Char) : Option (List Char × List Char × List Char) :=
  match l with
  | '[' :: r =>
    match tryEmoji r with
    | some (em, name, r1) =>
      let ws := r1.takeWhile isSpaceChar
      let r2 := r1.dropWhile isSpaceChar
      if ws = [] then none
      else
        let label := r2.takeWhile isWordChar
        let r3 := r2.dropWhile isWordChar
        if label = [] then none
        else
          match r3 with
          | ']' :: _ => some ('[' :: (em ++ ws ++ label ++ [']']), name, label)
          | _ => none
    | none => none
  | _ => none

/-- Leftmost tag match in the message, modelling `message.match(regex)`. -/
def findTag (l : List Char) : Option (List Char × List Char × List Char) :=
  match l with
  | [] => none
  | _ :: cs =>
    match matchTagAt l with
    | some r => some r
    | none => findTag cs

/-- Emotion extraction, translated from `extractEmotionalMarker` in
`server.ts`: on an agreeing leftmost tag, strip the tag's first occurrence
and trim; otherwise return the message untouched with no emotion. -/
def extractEmotionalMarker (message : List Char) : List Char × Option (List Char) :=
  match findTag message with
  | some (whole, name, label) =>
    if label.map Char.toLower = name then
      (trimChars (removeFirst whole message), some name)
    else (message, none)
  | none => (message, none)

/-- Association-list lookup, modelling `Map.prototype.get`. -/
def mapGet {K V : Type} [DecidableEq K] : List (K × V) → K → Option V
  | [], _ => none
  | (k', v') :: rest, k => if k' = k then some v' else mapGet rest k

/-- Association-list update, modelling `Map.prototype.set` (replace the
existing entry in place, else append). -/
def mapSet {K V : Type} [DecidableEq K] : List (K × V) → K → V → List (K × V)
  | [], k, v => [(k, v)]
  | (k', v') :: rest, k, v =>
    if k' = k then (k, v) :: rest else (k', v') :: mapSet rest k v

/-- One entry of the `requestCounts` map. -/
structure RateRecord where
  count : Nat
  resetTime : Nat
deriving DecidableEq

/-- The `RATE_LIMIT` constant. -/
def RATE_LIMIT : Nat := 10

/-- The `RATE_WINDOW` constant (milliseconds). -/
def RATE_WINDOW : Nat := 60000

/-- The `requestCounts` map. -/
def RateMap : Type := List (List Char × RateRecord)

/-- Rate-limit check, translated from `checkRateLimit` in `server.ts`;
returns whether the request is admitted together with the updated map. -/
def checkRateLimit (now : Nat) (m : RateMap) (ip : List Char) : Bool × RateMap :=
  match mapGet m ip with
  | none => (true, mapSet m ip ⟨1, now + RATE_WINDOW⟩)
  | some record =>
    if now > record.resetTime then (true, mapSet m ip ⟨1, now + RATE_WINDOW⟩)
    else if record.count ≥ RATE_LIMIT then (false, m)
    else (true, mapSet m ip ⟨record.count + 1, record.resetTime⟩)

/-- Number of admitted requests when the given request times are replayed in
order for one client, starting from the given map. -/
def countAdmitted (ip : List Char) : List Nat → RateMap → Nat
  | [], _ => 0
  | t :: ts, m =>
    let r := checkRateLimit t m ip
    (if r.1 then 1 else 0) + countAdmitted ip ts r.2

/-- The `TTSProvider` union type. -/
inductive TTSProvider where
  | elevenlabs
  | piper
  | macos
deriving DecidableEq

/-- Audio container formats of the three providers. -/
inductive AudioFormat where
  | mp3
  | wav
  | aiff
deriving DecidableEq

/-- The `ELEVENLABS_MAX_FAILS` constant. -/
def ELEVENLABS_MAX_FAILS : Nat := 3

/-- Outcome of the ElevenLabs HTTP call: a successful response (with an
opaque audio buffer, numbered) or a failure status with its error body. -/
inductive ELOutcome where
  | ok (audio : Nat)
  | httpError (status : Nat) (body : List Char)
deriving DecidableEq

/-- Static configuration read at server start: `TTS_PROVIDER`, presence of
`ELEVENLABS_API_KEY`, and whether `PIPER_MODEL_PATH` exists on disk. -/
structure TTSConfig where
  ttsProvider : TTSProvider
  hasApiKey : Bool
  piperModelExists : Bool
deriving DecidableEq

/-- Environment of one request: how each provider call and the audio
playback would turn out. -/
structure TTSAttempts where
  elevenlabs : ELOutcome
  piper : Except (List Char) Nat
  macos : Except (List Char) Nat
  play : Except (List Char) Unit

/-- The ElevenLabs provider call, translated from `generateSpeechElevenLabs`:
on a quota/rate-limit signal (HTTP 429 or an error body mentioning `quota`
or `limit`) the failure counter is forced to `ELEVENLABS_MAX_FAILS` before
the error is thrown; a successful call resets it to zero. -/
def generateSpeechElevenLabs (cfg : TTSConfig) (att : TTSAttempts) (failCount : Nat) :
    Except (List Char) Nat × Nat :=
  if !cfg.hasApiKey then (.error "ElevenLabs API key not configured".data, failCount)
  else
    match att.elevenlabs with
    | .ok audio => (.ok audio, 0)
    | .httpError status body =>
      let failCount' :=
        if status == 429 || hasSubstr "quota".data body || hasSubstr "limit".data body then
          ELEVENLABS_MAX_FAILS
        else failCount
      (.error ("ElevenLabs API error: ".data ++ (toString status).data ++ " - ".data ++ body),
        failCount')

/-- Provider-order computation at the head of `generateSpeech`. -/
def buildProviders (cfg : TTSConfig) (failCount : Nat) : List TTSProvider :=
  (if cfg.ttsProvider = TTSProvider.elevenlabs ∧ cfg.hasApiKey = true ∧
      failCount < ELEVENLABS_MAX_FAILS then [TTSProvider.elevenlabs] else []) ++
  (if cfg.ttsProvider ≠ TTSProvider.macos ∧ cfg.piperModelExists = true then
    [TTSProvider.piper] else []) ++
  [TTSProvider.macos]

/-- One attempt of the cascade loop body, returning the attempt's outcome
and the failure counter after the provider-specific call. -/
def attemptProvider (cfg : TTSConfig) (att : TTSAttempts) (failCount : Nat) :
    TTSProvider → Except (List Char) (Nat × TTSProvider × AudioFormat) × Nat
  | .elevenlabs =>
    match generateSpeechElevenLabs cfg att failCount with
    | (.ok audio, c) => (.ok (audio, .elevenlabs, .mp3), c)
    | (.error e, c) => (.error e, c)
  | .piper =>
    match att.piper with
    | .ok audio => (.ok (audio, .piper, .wav), failCount)
    | .error e => (.error e, failCount)
  | .macos =>
    match att.macos with
    | .ok audio => (.ok (audio, .macos, .aiff), failCount)
    | .error e => (.error e, failCount)

/-- The provider loop of `generateSpeech`: try each provider in order,
remember the last error, and bump the failure counter when the ElevenLabs
attempt threw. -/
def runCascade (cfg : TTSConfig) (att : TTSAttempts) :
    List TTSProvider → Option (List Char) → Nat →
    Except (List Char) (Nat × TTSProvider × AudioFormat) × Nat
  | [], lastError, failCount =>
    (.error (lastError.getD "All TTS providers failed".data), failCount)
  | p :: ps, lastError, failCount =>
    match attemptProvider cfg att failCount p with
    | (.ok r, c) => (.ok r, c)
    | (.error e, c) =>
      runCascade cfg att ps (some e)
        (if p = .elevenlabs then c + 1 else c)

/-- Cascading speech generation, translated from `generateSpeech` in
`server.ts`. -/
def generateSpeech (cfg : TTSConfig) (att : TTSAttempts) (failCount : Nat) :
    Except (List Char) (Nat × TTSProvider × AudioFormat) × Nat :=
  runCascade cfg att (buildProviders cfg failCount) none failCount

/-- Observable outcome of `sendNotification`: the thrown error (if any),
the entries appended to the persistent error log, and the new value of the
ElevenLabs failure counter. -/
structure NotifyOutcome where
  result : Except (List Char) Unit
  log : List (List Char)
  failCount : Nat

/-- Notification processing, translated from `sendNotification` in
`server.ts`: validation failures are thrown; every TTS or playback failure
is caught, appended to the error log with the ISO timestamp and the message
text, and swallowed. -/
def sendNotification (cfg : TTSConfig) (att : TTSAttempts) (nowIso : List Char)
    (title message : JSVal) (voiceEnabled : Bool) (failCount : Nat) : NotifyOutcome :=
  let titleValidation := validateInput title
  let messageValidation := validateInput message
  if !titleValidation.valid then
    { result := .error ("Invalid title: ".data ++ titleValidation.error.getD []),
      log := [], failCount := failCount }
  else if !messageValidation.valid then
    { result := .error ("Invalid message: ".data ++ messageValidation.error.getD []),
      log := [], failCount := failCount }
  else
    let safeMessage := (extractEmotionalMarker (messageValidation.sanitized.getD [])).1
    if voiceEnabled then
      match generateSpeech cfg att failCount with
      | (.ok _, c) =>
        match att.play with
        | .ok _ => { result := .ok (), log := [], failCount := c }
        | .error e =>
          { result := .ok (),
            log := [nowIso ++ " - TTS Error: ".data ++ e ++
              "\nMessage: ".data ++ safeMessage ++ "\n\n".data],
            failCount := c }
      | (.error e, c) =>
        { result := .ok (),
          log := [nowIso ++ " - TTS Error: ".data ++ e ++
            "\nMessage: ".data ++ safeMessage ++ "\n\n".data],
          failCount := c }
    else { result := .ok (), log := [], failCount := failCount }

/-- The parsed JSON body of a `/notify` request; absent fields are
`undef`. -/
structure NotifyData where
  title : JSVal
  message : JSVal
  voice_enabled : JSVal
  voice_id : JSVal
  voice_name : JSVal
deriving DecidableEq

/-- An incoming HTTP request; `body` is the outcome of `req.json()`. -/
structure HttpRequest where
  method : List Char
  path : List Char
  forwardedFor : Option (List Char)
  body : Except (List Char) NotifyData

/-- Response body shapes the handler produces. -/
inductive RespBody where
  | empty
  | json (status : List Char) (message : List Char)
  | text (s : List Char)
deriving DecidableEq

/-- An outgoing HTTP response; `corsOrigin` is the value of the
`Access-Control-Allow-Origin` header. -/
structure HttpResponse where
  status : Nat
  corsOrigin : List Char
  body : RespBody
deriving DecidableEq

/-- The process-wide mutable state of the server. -/
structure ServerState where
  rates : RateMap
  failCount : Nat
  errorLog : List (List Char)

/-- Request-independent environment: the clock, the ISO rendering of the
current time, the static TTS configuration and this request's provider
outcomes. -/
structure ServerEnv where
  now : Nat
  nowIso : List Char
  cfg : TTSConfig
  att : TTSAttempts

/-- The client address: `req.headers.get('x-forwarded-for') || 'localhost'`. -/
def clientIpOf (req : HttpRequest) : List Char :=
  match req.forwardedFor with
  | some s => if s = [] then "localhost".data else s
  | none => "localhost".data

/-- The `Access-Control-Allow-Origin` value of `corsHeaders`. -/
def corsOriginValue : List Char := "http://localhost".data

/-- Status selection of the `/notify` catch block:
`error.message?.includes('Invalid') ? 400 : 500`. -/
def errorStatus (e : List Char) : Nat := if hasSubstr "Invalid".data e then 400 else 500

/-- The `POST /notify` branch of the fetch handler (after the rate-limit
check), translated from `server.ts`.  Before `sendNotification` is reached
the pre-send log line evaluates `message.substring(0, 50)`, which throws a
TypeError (whose text does not contain "Invalid", hence status 500) when the
defaulted message is a truthy non-string. -/
def handleNotify (env : ServerEnv) (st : ServerState)
    (body : Except (List Char) NotifyData) : HttpResponse × ServerState :=
  match body with
  | .error e =>
    ({ status := errorStatus e, corsOrigin := corsOriginValue,
       body := .json "error".data (if e = [] then "Internal server error".data else e) }, st)
  | .ok data =>
    let title := jsOr data.title (.str "PAI Notification".data)
    let message := jsOr data.message (.str "Task completed".data)
    let voiceEnabled := decide (data.voice_enabled ≠ JSVal.bool false)
    let voiceId := jsOr data.voice_id (jsOr data.voice_name .jsNull)
    if voiceId.truthy && !voiceId.isStr then
      ({ status := errorStatus "Invalid voice_id".data, corsOrigin := corsOriginValue,
         body := .json "error".data "Invalid voice_id".data }, st)
    else if !message.isStr then
      ({ status := errorStatus "message.substring is not a function".data,
         corsOrigin := corsOriginValue,
         body := .json "error".data "message.substring is not a function".data }, st)
    else
      let n := sendNotification env.cfg env.att env.nowIso title message voiceEnabled
        st.failCount
      match n.result with
      | .ok _ =>
        ({ status := 200, corsOrigin := corsOriginValue,
           body := .json "success".data "Notification sent".data },
         { st with failCount := n.failCount, errorLog := st.errorLog ++ n.log })
      | .error e =>
        ({ status := errorStatus e, corsOrigin := corsOriginValue,
           body := .json "error".data (if e = [] then "Internal server error".data else e) },
         { st with failCount := n.failCount, errorLog := st.errorLog ++ n.log })

/-- The fetch handler, translated from the `serve` callback in `server.ts`. -/
def handleRequest (env : ServerEnv) (st : ServerState) (req : HttpRequest) :
    HttpResponse × ServerState :=
  if req.method = "OPTIONS".data then
    ({ status := 204, corsOrigin := corsOriginValue, body := .empty }, st)
  else
    let rl := checkRateLimit env.now st.rates (clientIpOf req)
    if !rl.1 then
      ({ status := 429, corsOrigin := corsOriginValue,
         body := .json "error".data "Rate limit exceeded".data },
       { st with rates := rl.2 })
    else
      let st1 := { st with rates := rl.2 }
      if req.path = "/notify".data ∧ req.method = "POST".data then
        handleNotify env st1 req.body
      else if req.path = "/health".data then
        ({ status := 200, corsOrigin := corsOriginValue, body := .text "healthy".data }, st1)
      else
        ({ status := 200, corsOrigin := corsOriginValue,
           body := .text "PAI Voice Server - POST to /notify (Cascading TTS: ElevenLabs → Piper → macOS)".data },
         st1)

/-- Words of a string: maximal runs of non-white-space characters. -/
def splitWords (l : List Char) : List (List Char) :=
  (l.splitOnP isSpaceChar).filter (fun w => w ≠ [])

/-- Modelled from the spec: the completion extractor (`extractCompletion` in
`hooks/stop-hook-voice.ts`) is not among the sources, so its description
cascade is modelled from §4.1 of the spec.  Rule 1 matches a line with an
emphasized `COMPLETED:` or `Done:` label, with or without a leading 🎯
emoji and with or without bold markup, and captures the remainder of the
line, trimmed and stripped of bold markup and of a leading bracketed
agent-tag. -/
def captureMarkerRest (r : List Char) : List Char :=
  let r1 := trimChars r
  let r2 := if List.isPrefixOf "**".data r1 then trimChars (r1.drop 2) else r1
  match r2 with
  | '[' :: rest =>
    if rest.contains ']' then trimChars ((rest.dropWhile (fun c => c ≠ ']')).drop 1)
    else r2
  | _ => r2

/-- Modelled from the spec: rule 1's full line matcher (see
`captureMarkerRest` for the capture of the remainder). -/
def matchMarkerLine (line : List Char) : Option (List Char) :=
  let l1 := line.dropWhile isSpaceChar
  let l2 := if List.isPrefixOf "🎯".data l1 then (l1.drop 1).dropWhile isSpaceChar else l1
  let l3 := if List.isPrefixOf "**".data l2 then l2.drop 2 else l2
  if List.isPrefixOf "COMPLETED:".data l3 then some (captureMarkerRest (l3.drop 10))
  else if List.isPrefixOf "Done:".data l3 then some (captureMarkerRest (l3.drop 5))
  else none

/-- Modelled from the spec: rule 1 of the description cascade applied to the
turn window — the first line carrying an explicit marker wins. -/
def firstMarker (lines : List (List Char)) : Option (List Char) :=
  lines.findSome? matchMarkerLine

/-- Modelled from the spec: the ordered cascade, first rule that yields a
match wins; rules 2–6 are abstract parameters since rule 1 shadows them
whenever it matches. -/
def extractCascade (lines : List (List Char))
    (r2 r3 r4 r5 r6 : List (List Char) → Option (List Char)) : Option (List Char) :=
  (firstMarker lines).orElse fun _ =>
  (r2 lines).orElse fun _ =>
  (r3 lines).orElse fun _ =>
  (r4 lines).orElse fun _ =>
  (r5 lines).orElse fun _ => r6 lines

/-- Modelled from the spec: rule 4's combination of file-modification
descriptions (a single entry is used verbatim; several are joined with
"and"; the spec's three-basename grouping is not needed by the claims). -/
def combineMods (mods : List (List Char)) : List Char :=
  match mods with
  | [] => []
  | [d] => d
  | d1 :: d2 :: _ => d1 ++ " and ".data ++ d2

/-- Modelled from the spec: the post-cascade override — when concrete file
modifications were detected and the cascade's result is empty or under 10
characters, the description is rebuilt from the modification list. -/
def applyOverride (mods : List (List Char)) (r : Option (List Char)) : Option (List Char) :=
  match r with
  | some d => if mods ≠ [] ∧ d.length < 10 then some (combineMods mods) else some d
  | none => if mods ≠ [] then some (combineMods mods) else none

/-- Modelled from the spec: the emoji characters removed by speech cleaning
(the fixed emotion emojis, the marker emoji, and the variation selector). -/
def cleanEmojiSet : List Char :=
  "🎯💥🎉💡🎨✨📈🔍🐛📚🤔⚠🚨".data ++ [Char.ofNat 0xFE0F]

/-- Modelled from the spec: speech cleaning of the winning description —
markup characters and emoji are stripped and white space is collapsed (the
words are rejoined with single spaces, which also trims). -/
def speechClean (l : List Char) : List Char :=
  List.intercalate [' ']
    (splitWords (l.filter (fun c =>
      !(c = '*' || c = '#' || c = Char.ofNat 96 || cleanEmojiSet.contains c))))

/-- Modelled from the spec: truncation to the first `n` whitespace-delimited
words. -/
def truncateWords (n : Nat) (l : List Char) : List Char :=
  List.intercalate [' '] ((splitWords l).take n)

/-- Modelled from the spec: the full description extraction — cascade, then
file-modification override, then speech cleaning and 10-word truncation. -/
def extractDescription (lines : List (List Char))
    (r2 r3 r4 r5 r6 : List (List Char) → Option (List Char))
    (mods : List (List Char)) : Option (List Char) :=
  (applyOverride mods (extractCascade lines r2 r3 r4 r5 r6)).map
    (fun d => truncateWords 10 (speechClean d))

/-! Helper lemmas shared by several claims. -/

/-- A pattern that sits at the front of a string is found by `hasSubstr`. -/
theorem hasSubstr_of_isPrefixOf {pat l : List Char} (h : pat.isPrefixOf l = true) :
    hasSubstr pat l = true := by
  cases l with
  | nil => simpa [hasSubstr] using h
  | cons c cs => simp [hasSubstr, h]

/-- `hasSubstr` finds a pattern prefixing the beginning of an append. -/
theorem hasSubstr_append_of_isPrefixOf {pat l1 l2 : List Char}
    (h : pat.isPrefixOf l1 = true) : hasSubstr pat (l1 ++ l2) = true := by
  apply hasSubstr_of_isPrefixOf
  rw [List.isPrefixOf_iff_prefix] at h ⊢
  exact h.trans (l1.prefix_append l2)

/-- Updating a key makes it readable. -/
theorem mapGet_mapSet_self {K V : Type} [DecidableEq K] (m : List (K × V)) (k : K) (v : V) :
    mapGet (mapSet m k v) k = some v := by
  induction m with
  | nil => simp [mapSet, mapGet]
  | cons p rest ih =>
    by_cases h : p.1 = k
    · simp [mapSet, mapGet, h]
    · simp [mapSet, mapGet, h, ih]

/-! Claim C9. -/

/-- C9 (amended): for every turn window whose first marker line captures the
text `t`, and for arbitrary later cascade rules and modification lists, the
extracted description equals `t` provided `t` survives speech cleaning and
the ten-word truncation unchanged and the file-modification override does
not fire (no modifications were collected, or `t` has at least 10
characters). -/
theorem C9_marker_priority (lines : List (List Char))
    (r2 r3 r4 r5 r6 : List (List Char) → Option (List Char))
    (mods : List (List Char)) (t : List Char)
    (hm : firstMarker lines = some t)
    (hov : mods = [] ∨ 10 ≤ t.length)
    (hclean : truncateWords 10 (speechClean t) = t) :
    extractDescription lines r2 r3 r4 r5 r6 mods = some t := by
  unfold extractDescription extractCascade applyOverride
  rw [hm]
  rcases hov with h | h
  · simp [Option.orElse, h, hclean]
  · have hlt : ¬(mods ≠ [] ∧ t.length < 10) := by
      rintro ⟨-, hl⟩
      omega
    simp [Option.orElse, hlt, hclean]

/-- Witness for `C9_marker_priority` at a concrete transcript window. -/
theorem C9_marker_priority_witness :
    extractDescription ["🎯 COMPLETED: Fixed the rate limiter".data]
      (fun _ => none) (fun _ => none) (fun _ => none) (fun _ => none) (fun _ => none)
      ["Modified a.ts".data] = some "Fixed the rate limiter".data :=
  C9_marker_priority _ _ _ _ _ _ _ _ (by decide) (Or.inr (by decide)) (by decide)

/-- C9 counterexample: a window whose `COMPLETED:` marker captures the short
text `ok` while a file modification was collected; the override replaces the
marker text, so the extracted description is `Modified a.ts`, not the
marker's trailing text, contradicting the claim's "regardless of any other
content". -/
theorem C9_counterexample :
    extractDescription ["🎯 COMPLETED: ok".data]
      (fun _ => none) (fun _ => none) (fun _ => none) (fun _ => none) (fun _ => none)
      ["Modified a.ts".data] = some "Modified a.ts".data
    ∧ firstMarker ["🎯 COMPLETED: ok".data] = some "ok".data
    ∧ "Modified a.ts".data ≠ "ok".data := by
  refine ⟨by decide, by decide, by decide⟩

/-! Claim C10. -/

/-- When both fields validate, `sendNotification` never throws: TTS and
playback failures are swallowed. -/
theorem sendNotification_ok_result (cfg : TTSConfig) (att : TTSAttempts)
    (nowIso : List Char) (title message : JSVal) (voiceEnabled : Bool) (count : Nat)
    (ht : (validateInput title).valid = true)
    (hm : (validateInput message).valid = true) :
    (sendNotification cfg att nowIso title message voiceEnabled count).result = .ok () := by
  unfold sendNotification
  simp only [ht, hm, Bool.not_true, Bool.false_eq_true, if_false]
  cases voiceEnabled with
  | false => simp
  | true =>
    simp only [if_true]
    rcases hg : generateSpeech cfg att count with ⟨r, c⟩
    cases r with
    | ok v => cases hp : att.play <;> simp [hg, hp]
    | error e => simp [hg]

/-- C10: a `POST /notify` body that omits the message field (or supplies a
falsy value such as the empty string) is not rejected: the handler
substitutes the default "Task completed" (and "PAI Notification" for a
missing title) before validation and proceeds exactly as if the default text
had been sent; in particular a request with an empty JSON object succeeds
with 200. -/
theorem C10_default_message :
    (∀ env st data, data.message.truthy = false →
      handleNotify env st (.ok data) =
        handleNotify env st (.ok { data with message := .str "Task completed".data }))
    ∧ (∀ env st data, data.title.truthy = false →
      handleNotify env st (.ok data) =
        handleNotify env st (.ok { data with title := .str "PAI Notification".data }))
    ∧ (∀ env st ff,
      (checkRateLimit env.now st.rates
        (clientIpOf ⟨"POST".data, "/notify".data, ff,
          .ok ⟨.undef, .undef, .undef, .undef, .undef⟩⟩)).1 = true →
      ((handleRequest env st ⟨"POST".data, "/notify".data, ff,
          .ok ⟨.undef, .undef, .undef, .undef, .undef⟩⟩).1.status = 200 ∧
        (handleRequest env st ⟨"POST".data, "/notify".data, ff,
          .ok ⟨.undef, .undef, .undef, .undef, .undef⟩⟩).1.body =
          .json "success".data "Notification sent".data)) := by
  refine ⟨?_, ?_, ?_⟩
  · intro env st data h
    have htru : (JSVal.str "Task completed".data).truthy = true := by decide
    simp [handleNotify, jsOr, h, htru]
  · intro env st data h
    have htru : (JSVal.str "PAI Notification".data).truthy = true := by decide
    simp [handleNotify, jsOr, h, htru]
  · intro env st ff hrl
    have hres := sendNotification_ok_result env.cfg env.att env.nowIso
      (JSVal.str "PAI Notification".data) (JSVal.str "Task completed".data)
      true st.failCount (by decide) (by decide)
    unfold handleRequest
    rw [if_neg (by decide : ¬("POST".data = "OPTIONS".data))]
    simp only [hrl, Bool.not_true, Bool.false_eq_true, if_false]
    rw [if_pos (by decide)]
    unfold handleNotify
    simp only [jsOr, JSVal.truthy, Bool.false_eq_true, if_false, JSVal.isStr,
      Bool.and_false, Bool.false_and]
    have hve : decide (JSVal.undef ≠ JSVal.bool false) = true := by decide
    simp only [hve]
    simp [hres]

/-- Witness for `C10_default_message`: concrete instantiations discharging
each hypothesis. -/
theorem C10_default_message_witness :
    (handleNotify ⟨0, [], ⟨.macos, false, false⟩,
        ⟨.httpError 500 [], .error [], .ok 1, .ok ()⟩⟩ ⟨[], 0, []⟩
        (.ok ⟨.undef, .str [], .undef, .undef, .undef⟩) =
      handleNotify ⟨0, [], ⟨.macos, false, false⟩,
        ⟨.httpError 500 [], .error [], .ok 1, .ok ()⟩⟩ ⟨[], 0, []⟩
        (.ok ⟨.undef, .str "Task completed".data, .undef, .undef, .undef⟩))
    ∧ ((handleRequest ⟨0, [], ⟨.macos, false, false⟩,
        ⟨.httpError 500 [], .error [], .ok 1, .ok ()⟩⟩ ⟨[], 0, []⟩
        ⟨"POST".data, "/notify".data, none,
          .ok ⟨.undef, .undef, .undef, .undef, .undef⟩⟩).1.status = 200) := by
  constructor
  · exact C10_default_message.1 _ _ _ (by decide)
  · exact (C10_default_message.2.2 _ _ _ (by decide)).1

/-! Claim C5. -/

/-- A `POST /notify` request that passes the rate check is handled by the
`/notify` branch, with the rate map updated. -/
theorem handleRequest_notify (env : ServerEnv) (st : ServerState)
    (ff : Option (List Char)) (body : Except (List Char) NotifyData)
    (hrl : (checkRateLimit env.now st.rates
      (clientIpOf ⟨"POST".data, "/notify".data, ff, body⟩)).1 = true) :
    handleRequest env st ⟨"POST".data, "/notify".data, ff, body⟩ =
      handleNotify env
        { st with rates := (checkRateLimit env.now st.rates
            (clientIpOf ⟨"POST".data, "/notify".data, ff, body⟩)).2 } body := by
  unfold handleRequest
  rw [if_neg (by decide : ¬("POST".data = "OPTIONS".data))]
  simp only [hrl, Bool.not_true, Bool.false_eq_true, if_false]
  rw [if_pos (by decide)]

/-- An invalid title is thrown as `Invalid title: …`. -/
theorem sendNotification_invalid_title (cfg : TTSConfig) (att : TTSAttempts)
    (nowIso : List Char) (title message : JSVal) (ve : Bool) (count : Nat)
    (ht : (validateInput title).valid = false) :
    (sendNotification cfg att nowIso title message ve count).result =
      .error ("Invalid title: ".data ++ (validateInput title).error.getD []) := by
  unfold sendNotification
  simp [ht]

/-- An invalid message (with a valid title) is thrown as
`Invalid message: …`. -/
theorem sendNotification_invalid_message (cfg : TTSConfig) (att : TTSAttempts)
    (nowIso : List Char) (title message : JSVal) (ve : Bool) (count : Nat)
    (ht : (validateInput title).valid = true)
    (hm : (validateInput message).valid = false) :
    (sendNotification cfg att nowIso title message ve count).result =
      .error ("Invalid message: ".data ++ (validateInput message).error.getD []) := by
  unfold sendNotification
  simp [ht, hm]

/-- Every `handleNotify` response carries the localhost CORS origin. -/
theorem handleNotify_cors (env : ServerEnv) (st : ServerState)
    (body : Except (List Char) NotifyData) :
    (handleNotify env st body).1.corsOrigin = corsOriginValue := by
  unfold handleNotify
  rcases body with e | data
  · rfl
  · dsimp only
    split
    · rfl
    · split
      · rfl
      · split <;> rfl

/-- A value that validates is a string. -/
theorem validateInput_valid_isStr {v : JSVal} (h : (validateInput v).valid = true) :
    v.isStr = true := by
  cases v with
  | str s => rfl
  | undef => simp [validateInput] at h
  | jsNull => simp [validateInput] at h
  | bool b => simp [validateInput] at h
  | num n => simp [validateInput] at h
  | obj => simp [validateInput] at h

/-- C5: an OPTIONS request returns 204; a non-OPTIONS request over the rate
limit returns 429; a `POST /notify` whose processing succeeds returns 200
with status "success"; a `POST /notify` whose processing throws returns 400
exactly when the thrown error's message contains "Invalid" (a body-parse
error conditionally on its text; a bad `voice_id`, an invalid title and an
invalid string message always, their messages containing "Invalid"; a truthy
non-string message throws a `substring` TypeError at the pre-send log line
whose text does not contain "Invalid", hence 500) and 500 otherwise; and
every response restricts the CORS origin to localhost. -/
theorem C5_http_statuses :
    (∀ env st req, req.method = "OPTIONS".data →
      (handleRequest env st req).1.status = 204)
    ∧ (∀ env st req, req.method ≠ "OPTIONS".data →
      (checkRateLimit env.now st.rates (clientIpOf req)).1 = false →
      (handleRequest env st req).1.status = 429)
    ∧ (∀ env st ff data,
      (checkRateLimit env.now st.rates
        (clientIpOf ⟨"POST".data, "/notify".data, ff, .ok data⟩)).1 = true →
      (validateInput (jsOr data.title (.str "PAI Notification".data))).valid = true →
      (validateInput (jsOr data.message (.str "Task completed".data))).valid = true →
      ((jsOr data.voice_id (jsOr data.voice_name .jsNull)).truthy = true →
        (jsOr data.voice_id (jsOr data.voice_name .jsNull)).isStr = true) →
      ((handleRequest env st ⟨"POST".data, "/notify".data, ff, .ok data⟩).1.status = 200 ∧
        (handleRequest env st ⟨"POST".data, "/notify".data, ff, .ok data⟩).1.body =
          .json "success".data "Notification sent".data))
    ∧ (∀ env st ff e,
      (checkRateLimit env.now st.rates
        (clientIpOf ⟨"POST".data, "/notify".data, ff, .error e⟩)).1 = true →
      (handleRequest env st ⟨"POST".data, "/notify".data, ff, .error e⟩).1.status =
        (if hasSubstr "Invalid".data e then 400 else 500))
    ∧ (∀ env st ff data,
      (checkRateLimit env.now st.rates
        (clientIpOf ⟨"POST".data, "/notify".data, ff, .ok data⟩)).1 = true →
      (jsOr data.voice_id (jsOr data.voice_name .jsNull)).truthy = true →
      (jsOr data.voice_id (jsOr data.voice_name .jsNull)).isStr = false →
      (handleRequest env st ⟨"POST".data, "/notify".data, ff, .ok data⟩).1.status = 400)
    ∧ (∀ env st ff data,
      (checkRateLimit env.now st.rates
        (clientIpOf ⟨"POST".data, "/notify".data, ff, .ok data⟩)).1 = true →
      ((jsOr data.voice_id (jsOr data.voice_name .jsNull)).truthy = true →
        (jsOr data.voice_id (jsOr data.voice_name .jsNull)).isStr = true) →
      (jsOr data.message (.str "Task completed".data)).isStr = false →
      (handleRequest env st ⟨"POST".data, "/notify".data, ff, .ok data⟩).1.status = 500)
    ∧ (∀ env st ff data,
      (checkRateLimit env.now st.rates
        (clientIpOf ⟨"POST".data, "/notify".data, ff, .ok data⟩)).1 = true →
      ((jsOr data.voice_id (jsOr data.voice_name .jsNull)).truthy = true →
        (jsOr data.voice_id (jsOr data.voice_name .jsNull)).isStr = true) →
      (jsOr data.message (.str "Task completed".data)).isStr = true →
      (validateInput (jsOr data.title (.str "PAI Notification".data))).valid = false →
      (handleRequest env st ⟨"POST".data, "/notify".data, ff, .ok data⟩).1.status = 400)
    ∧ (∀ env st ff data,
      (checkRateLimit env.now st.rates
        (clientIpOf ⟨"POST".data, "/notify".data, ff, .ok data⟩)).1 = true →
      ((jsOr data.voice_id (jsOr data.voice_name .jsNull)).truthy = true →
        (jsOr data.voice_id (jsOr data.voice_name .jsNull)).isStr = true) →
      (jsOr data.message (.str "Task completed".data)).isStr = true →
      (validateInput (jsOr data.title (.str "PAI Notification".data))).valid = true →
      (validateInput (jsOr data.message (.str "Task completed".data))).valid = false →
      (handleRequest env st ⟨"POST".data, "/notify".data, ff, .ok data⟩).1.status = 400)
    ∧ (∀ env st req,
      (handleRequest env st req).1.corsOrigin = "http://localhost".data) := by
  have hVoiceCond : ∀ v : JSVal, (v.truthy = true → v.isStr = true) →
      (v.truthy && !v.isStr) = false := by
    intro v h
    cases hv : v.truthy with
    | false => simp
    | true => simp [h hv]
  refine ⟨?_, ?_, ?_, ?_, ?_, ?_, ?_, ?_, ?_⟩
  · intro env st req h
    unfold handleRequest
    rw [if_pos h]
  · intro env st req h hrl
    unfold handleRequest
    rw [if_neg h]
    simp only [hrl, Bool.not_false, if_true]
  · intro env st ff data hrl ht hm hv
    have hms := validateInput_valid_isStr hm
    rw [handleRequest_notify env st ff (.ok data) hrl]
    unfold handleNotify
    simp only [hVoiceCond _ hv, Bool.false_eq_true, if_false, hms, Bool.not_true]
    have hres := sendNotification_ok_result env.cfg env.att env.nowIso
      (jsOr data.title (.str "PAI Notification".data))
      (jsOr data.message (.str "Task completed".data))
      (!decide (data.voice_enabled = JSVal.bool false)) st.failCount ht hm
    simp [hres]
  · intro env st ff e hrl
    rw [handleRequest_notify env st ff (.error e) hrl]
    unfold handleNotify errorStatus
    rfl
  · intro env st ff data hrl htr hstr
    rw [handleRequest_notify env st ff (.ok data) hrl]
    unfold handleNotify
    simp only [htr, hstr, Bool.not_false, Bool.true_and, if_true]
    decide
  · intro env st ff data hrl hv hmsf
    rw [handleRequest_notify env st ff (.ok data) hrl]
    unfold handleNotify
    simp only [hVoiceCond _ hv, Bool.false_eq_true, if_false, hmsf, Bool.not_false,
      if_true]
    decide
  · intro env st ff data hrl hv hms ht
    rw [handleRequest_notify env st ff (.ok data) hrl]
    unfold handleNotify
    simp only [hVoiceCond _ hv, Bool.false_eq_true, if_false, hms, Bool.not_true]
    have hres := sendNotification_invalid_title env.cfg env.att env.nowIso
      (jsOr data.title (.str "PAI Notification".data))
      (jsOr data.message (.str "Task completed".data))
      (!decide (data.voice_enabled = JSVal.bool false)) st.failCount
      (by simpa using ht)
    simp [hres]
    unfold errorStatus
    rw [if_pos (hasSubstr_of_isPrefixOf (by rfl))]
  · intro env st ff data hrl hv hms ht hm
    rw [handleRequest_notify env st ff (.ok data) hrl]
    unfold handleNotify
    simp only [hVoiceCond _ hv, Bool.false_eq_true, if_false, hms, Bool.not_true]
    have hres := sendNotification_invalid_message env.cfg env.att env.nowIso
      (jsOr data.title (.str "PAI Notification".data))
      (jsOr data.message (.str "Task completed".data))
      (!decide (data.voice_enabled = JSVal.bool false)) st.failCount ht
      (by simpa using hm)
    simp [hres]
    unfold errorStatus
    rw [if_pos (hasSubstr_of_isPrefixOf (by rfl))]
  · intro env st req
    unfold handleRequest
    by_cases h1 : req.method = "OPTIONS".data
    · rw [if_pos h1]; rfl
    · rw [if_neg h1]
      dsimp only
      cases h2 : (checkRateLimit env.now st.rates (clientIpOf req)).1 with
      | false => simp only [h2, Bool.not_false, if_true]; rfl
      | true =>
        simp only [h2, Bool.not_true, Bool.false_eq_true, if_false]
        split
        · exact handleNotify_cors _ _ _
        · split <;> rfl

/-- Witness for `C5_http_statuses` at concrete requests. -/
theorem C5_http_statuses_witness :
    ((handleRequest ⟨0, [], ⟨.macos, false, false⟩, ⟨.httpError 500 [], .error [], .ok 1, .ok ()⟩⟩
        ⟨[], 0, []⟩ ⟨"OPTIONS".data, "/".data, none, .error []⟩).1.status = 204)
    ∧ ((handleRequest ⟨0, [], ⟨.macos, false, false⟩, ⟨.httpError 500 [], .error [], .ok 1, .ok ()⟩⟩
        ⟨[("localhost".data, ⟨10, 60000⟩)], 0, []⟩
        ⟨"POST".data, "/notify".data, none, .error []⟩).1.status = 429)
    ∧ ((handleRequest ⟨0, [], ⟨.macos, false, false⟩, ⟨.httpError 500 [], .error [], .ok 1, .ok ()⟩⟩
        ⟨[], 0, []⟩ ⟨"POST".data, "/notify".data, none,
          .ok ⟨.undef, .undef, .undef, .undef, .undef⟩⟩).1.status = 200)
    ∧ ((handleRequest ⟨0, [], ⟨.macos, false, false⟩, ⟨.httpError 500 [], .error [], .ok 1, .ok ()⟩⟩
        ⟨[], 0, []⟩ ⟨"POST".data, "/notify".data, none,
          .error "bad json".data⟩).1.status = 500)
    ∧ ((handleRequest ⟨0, [], ⟨.macos, false, false⟩, ⟨.httpError 500 [], .error [], .ok 1, .ok ()⟩⟩
        ⟨[], 0, []⟩ ⟨"POST".data, "/notify".data, none,
          .ok ⟨.undef, .undef, .undef, .num 1, .undef⟩⟩).1.status = 400)
    ∧ ((handleRequest ⟨0, [], ⟨.macos, false, false⟩, ⟨.httpError 500 [], .error [], .ok 1, .ok ()⟩⟩
        ⟨[], 0, []⟩ ⟨"POST".data, "/notify".data, none,
          .ok ⟨.undef, .num 1, .undef, .undef, .undef⟩⟩).1.status = 500)
    ∧ ((handleRequest ⟨0, [], ⟨.macos, false, false⟩, ⟨.httpError 500 [], .error [], .ok 1, .ok ()⟩⟩
        ⟨[], 0, []⟩ ⟨"POST".data, "/notify".data, none,
          .ok ⟨.num 1, .undef, .undef, .undef, .undef⟩⟩).1.status = 400)
    ∧ ((handleRequest ⟨0, [], ⟨.macos, false, false⟩, ⟨.httpError 500 [], .error [], .ok 1, .ok ()⟩⟩
        ⟨[], 0, []⟩ ⟨"POST".data, "/notify".data, none,
          .ok ⟨.undef, .str " ".data, .undef, .undef, .undef⟩⟩).1.status = 400)
    ∧ ((handleRequest ⟨0, [], ⟨.macos, false, false⟩, ⟨.httpError 500 [], .error [], .ok 1, .ok ()⟩⟩
        ⟨[], 0, []⟩ ⟨"OPTIONS".data, "/".data, none, .error []⟩).1.corsOrigin =
        "http://localhost".data) := by
  refine ⟨?_, ?_, ?_, ?_, ?_, ?_, ?_, ?_, ?_⟩
  · exact C5_http_statuses.1 _ _ _ (by decide)
  · exact C5_http_statuses.2.1 _ _ _ (by decide) (by decide)
  · exact (C5_http_statuses.2.2.1 _ _ none _ (by decide) (by decide) (by decide) (by decide)).1
  · exact (C5_http_statuses.2.2.2.1 _ _ none _ (by decide)).trans (by decide)
  · exact C5_http_statuses.2.2.2.2.1 _ _ none _ (by decide) (by decide) (by decide)
  · exact C5_http_statuses.2.2.2.2.2.1 _ _ none _ (by decide) (by decide) (by decide)
  · exact C5_http_statuses.2.2.2.2.2.2.1 _ _ none _ (by decide) (by decide) (by decide)
      (by decide)
  · exact C5_http_statuses.2.2.2.2.2.2.2.1 _ _ none _ (by decide) (by decide) (by decide)
      (by decide) (by decide)
  · exact C5_http_statuses.2.2.2.2.2.2.2.2 _ _ _

/-! Claim C2. -/

/-- Replaying requests that all fall inside the current window admits at
most what remains of the per-window budget. -/
theorem countAdmitted_le (ip : List Char) :
    ∀ (ts : List Nat) (m : RateMap) (r : RateRecord),
      mapGet m ip = some r → (∀ t ∈ ts, t ≤ r.resetTime) →
      countAdmitted ip ts m ≤ RATE_LIMIT - r.count := by
  intro ts
  induction ts with
  | nil => intro m r _ _; simp [countAdmitted]
  | cons t ts ih =>
    intro m r hget hts
    have hle : t ≤ r.resetTime := hts t (by simp)
    have hrest : ∀ t' ∈ ts, t' ≤ r.resetTime := fun t' ht' => hts t' (by simp [ht'])
    unfold countAdmitted checkRateLimit
    rw [hget]
    dsimp only
    rw [if_neg (by omega : ¬ t > r.resetTime)]
    by_cases hc : r.count ≥ RATE_LIMIT
    · rw [if_pos hc]
      have := ih m r hget hrest
      simp only [if_false, Bool.false_eq_true]
      omega
    · rw [if_neg hc]
      have hget' : mapGet (mapSet m ip ⟨r.count + 1, r.resetTime⟩) ip =
          some ⟨r.count + 1, r.resetTime⟩ := mapGet_mapSet_self m ip _
      have := ih _ _ hget' hrest
      dsimp only at this
      simp only [if_true]
      omega

/-- C2: the rate limiter admits at most `RATE_LIMIT` (10) requests per
window: a request that would exceed the limit inside the window is rejected
— at the HTTP layer with status 429 — and leaves the rate map unchanged;
once the window's reset time has passed the next request succeeds with the
count and reset timestamp re-initialised together; and a fresh client
replaying any schedule of requests inside one window gets at most 10
admissions. -/
theorem C2_rate_limiter :
    (∀ now m ip r, mapGet m ip = some r → RATE_LIMIT ≤ r.count → now ≤ r.resetTime →
      checkRateLimit now m ip = (false, m))
    ∧ (∀ env st req r, req.method ≠ "OPTIONS".data →
        mapGet st.rates (clientIpOf req) = some r → RATE_LIMIT ≤ r.count →
        env.now ≤ r.resetTime →
        ((handleRequest env st req).1.status = 429 ∧
          (handleRequest env st req).2.rates = st.rates))
    ∧ (∀ now m ip r, mapGet m ip = some r → r.resetTime < now →
        checkRateLimit now m ip = (true, mapSet m ip ⟨1, now + RATE_WINDOW⟩))
    ∧ (∀ ip t0 ts m, mapGet m ip = none → (∀ t ∈ ts, t ≤ t0 + RATE_WINDOW) →
        countAdmitted ip (t0 :: ts) m ≤ RATE_LIMIT) := by
  have hrej : ∀ now m ip r, mapGet m ip = some r → RATE_LIMIT ≤ r.count →
      now ≤ r.resetTime → checkRateLimit now m ip = (false, m) := by
    intro now m ip r hget hc hn
    unfold checkRateLimit
    rw [hget]
    dsimp only
    rw [if_neg (by omega : ¬ now > r.resetTime), if_pos (by omega : r.count ≥ RATE_LIMIT)]
  refine ⟨hrej, ?_, ?_, ?_⟩
  · intro env st req r hm hget hc hn
    have h429 := hrej env.now st.rates (clientIpOf req) r hget hc hn
    unfold handleRequest
    rw [if_neg hm]
    simp only [h429, Bool.not_false, if_true]
    simp
  · intro now m ip r hget hlt
    unfold checkRateLimit
    rw [hget]
    dsimp only
    rw [if_pos (by omega : now > r.resetTime)]
  · intro ip t0 ts m hget hts
    unfold countAdmitted checkRateLimit
    rw [hget]
    dsimp only
    have hget' : mapGet (mapSet m ip ⟨1, t0 + RATE_WINDOW⟩) ip =
        some ⟨1, t0 + RATE_WINDOW⟩ := mapGet_mapSet_self m ip _
    have hb := countAdmitted_le ip ts (mapSet m ip ⟨1, t0 + RATE_WINDOW⟩)
      ⟨1, t0 + RATE_WINDOW⟩ hget' hts
    dsimp only at hb
    simp only [if_true]
    unfold RATE_LIMIT at hb ⊢
    omega

/-- Witness for `C2_rate_limiter` at concrete maps and requests. -/
theorem C2_rate_limiter_witness :
    (checkRateLimit 5 [("10.0.0.1".data, ⟨10, 100⟩)] "10.0.0.1".data =
      (false, [("10.0.0.1".data, ⟨10, 100⟩)]))
    ∧ ((handleRequest ⟨5, [], ⟨.macos, false, false⟩,
          ⟨.httpError 500 [], .error [], .ok 1, .ok ()⟩⟩
        ⟨[("localhost".data, ⟨10, 100⟩)], 0, []⟩
        ⟨"GET".data, "/health".data, none, .error []⟩).1.status = 429)
    ∧ (checkRateLimit 200000 [("10.0.0.1".data, ⟨10, 100⟩)] "10.0.0.1".data =
      (true, [("10.0.0.1".data, ⟨1, 260000⟩)]))
    ∧ (countAdmitted "10.0.0.1".data [0, 1, 2, 3, 4, 5, 6, 7, 8, 9, 10, 11, 12] [] ≤ 10) := by
  refine ⟨?_, ?_, ?_, ?_⟩
  · exact C2_rate_limiter.1 5 _ _ ⟨10, 100⟩ (by decide) (by decide) (by decide)
  · exact (C2_rate_limiter.2.1 _ _ _ ⟨10, 100⟩ (by decide) (by decide) (by decide)
      (by decide)).1
  · exact C2_rate_limiter.2.2.1 200000 _ _ ⟨10, 100⟩ (by decide) (by decide)
  · exact C2_rate_limiter.2.2.2 _ 0 [1, 2, 3, 4, 5, 6, 7, 8, 9, 10, 11, 12] []
      (by decide) (by decide)

/-! Claim C1. -/

/-- The cascade leaves the failure counter unchanged when ElevenLabs is not
among the providers tried. -/
theorem runCascade_count_const (cfg : TTSConfig) (att : TTSAttempts) :
    ∀ (ps : List TTSProvider) (le : Option (List Char)) (c : Nat),
      TTSProvider.elevenlabs ∉ ps → (runCascade cfg att ps le c).2 = c := by
  intro ps
  induction ps with
  | nil => intro le c _; rfl
  | cons p ps ih =>
    intro le c hne
    have hp : p ≠ TTSProvider.elevenlabs := fun h => hne (by simp [h])
    have hps : TTSProvider.elevenlabs ∉ ps := fun h => hne (by simp [h])
    unfold runCascade
    cases p with
    | elevenlabs => exact absurd rfl hp
    | piper =>
      cases hpr : att.piper with
      | ok a => simp [attemptProvider, hpr]
      | error e => simp [attemptProvider, hpr, ih _ _ hps]
    | macos =>
      cases hpr : att.macos with
      | ok a => simp [attemptProvider, hpr]
      | error e => simp [attemptProvider, hpr, ih _ _ hps]

/-- C1: a quota/rate-limit signal from ElevenLabs (HTTP 429 or an error
body mentioning quota or limit) drives the failure counter straight to
`ELEVENLABS_MAX_FAILS` inside the provider call, so the counter after the
whole cascade is at least the maximum; once the counter is at the maximum,
every `generateSpeech` call builds a provider list without ElevenLabs (even
with the API key configured) that starts with Piper or macOS, and leaves the
counter unchanged; a successful ElevenLabs call resets the counter to
zero. -/
theorem C1_quota_fallback :
    (∀ cfg att count status body, cfg.hasApiKey = true →
      att.elevenlabs = .httpError status body →
      (status = 429 ∨ hasSubstr "quota".data body = true ∨
        hasSubstr "limit".data body = true) →
      (generateSpeechElevenLabs cfg att count).2 = ELEVENLABS_MAX_FAILS)
    ∧ (∀ cfg att count status body, cfg.ttsProvider = .elevenlabs → cfg.hasApiKey = true →
      count < ELEVENLABS_MAX_FAILS → att.elevenlabs = .httpError status body →
      (status = 429 ∨ hasSubstr "quota".data body = true ∨
        hasSubstr "limit".data body = true) →
      ELEVENLABS_MAX_FAILS ≤ (generateSpeech cfg att count).2)
    ∧ (∀ cfg att c, ELEVENLABS_MAX_FAILS ≤ c →
      (TTSProvider.elevenlabs ∉ buildProviders cfg c
        ∧ ((buildProviders cfg c).head? = some TTSProvider.piper ∨
            (buildProviders cfg c).head? = some TTSProvider.macos)
        ∧ (generateSpeech cfg att c).2 = c))
    ∧ (∀ cfg att count audio, cfg.ttsProvider = .elevenlabs → cfg.hasApiKey = true →
      count < ELEVENLABS_MAX_FAILS → att.elevenlabs = .ok audio →
      generateSpeech cfg att count = (.ok (audio, .elevenlabs, .mp3), 0)) := by
  have hquota : ∀ cfg att count status body, cfg.hasApiKey = true →
      att.elevenlabs = .httpError status body →
      (status = 429 ∨ hasSubstr "quota".data body = true ∨
        hasSubstr "limit".data body = true) →
      generateSpeechElevenLabs cfg att count =
        (.error ("ElevenLabs API error: ".data ++ (toString status).data ++ " - ".data ++ body),
          ELEVENLABS_MAX_FAILS) := by
    intro cfg att count status body hkey helabs hq
    have hqb : (status == 429 || hasSubstr "quota".data body ||
        hasSubstr "limit".data body) = true := by
      rcases hq with h | h | h <;> simp [h]
    unfold generateSpeechElevenLabs
    simp only [hkey, Bool.not_true, Bool.false_eq_true, if_false]
    rw [helabs]
    dsimp only
    rw [if_pos hqb]
  refine ⟨?_, ?_, ?_, ?_⟩
  · intro cfg att count status body hkey helabs hq
    rw [hquota cfg att count status body hkey helabs hq]
  · intro cfg att count status body hprov hkey hcnt helabs hq
    unfold generateSpeech buildProviders
    rw [if_pos ⟨hprov, hkey, hcnt⟩]
    have hmem : TTSProvider.elevenlabs ∉
        ((if cfg.ttsProvider ≠ TTSProvider.macos ∧ cfg.piperModelExists = true then
          [TTSProvider.piper] else []) ++ [TTSProvider.macos]) := by
      by_cases hx : cfg.ttsProvider ≠ TTSProvider.macos ∧ cfg.piperModelExists = true <;>
        simp [hx]
    unfold runCascade
    simp only [List.singleton_append, List.cons_append]
    rw [show attemptProvider cfg att count TTSProvider.elevenlabs =
        (.error ("ElevenLabs API error: ".data ++ (toString status).data ++
          " - ".data ++ body), ELEVENLABS_MAX_FAILS) from by
      unfold attemptProvider
      rw [hquota cfg att count status body hkey helabs hq]]
    simp only [List.nil_append, if_true]
    rw [runCascade_count_const cfg att _ _ _ hmem]
    omega
  · intro cfg att c hc
    have hcond : ¬(cfg.ttsProvider = TTSProvider.elevenlabs ∧ cfg.hasApiKey = true ∧
        c < ELEVENLABS_MAX_FAILS) := by
      rintro ⟨-, -, hlt⟩
      omega
    have hmem : TTSProvider.elevenlabs ∉ buildProviders cfg c := by
      unfold buildProviders
      rw [if_neg hcond]
      by_cases hx : cfg.ttsProvider ≠ TTSProvider.macos ∧ cfg.piperModelExists = true <;>
        simp [hx]
    refine ⟨hmem, ?_, ?_⟩
    · unfold buildProviders
      rw [if_neg hcond]
      by_cases hx : cfg.ttsProvider ≠ TTSProvider.macos ∧ cfg.piperModelExists = true
      · rw [if_pos hx]
        left
        rfl
      · rw [if_neg hx]
        right
        rfl
    · unfold generateSpeech
      exact runCascade_count_const cfg att _ none c hmem
  · intro cfg att count audio hprov hkey hcnt hok
    unfold generateSpeech buildProviders
    rw [if_pos ⟨hprov, hkey, hcnt⟩]
    unfold runCascade
    simp only [List.singleton_append, List.cons_append]
    rw [show attemptProvider cfg att count TTSProvider.elevenlabs =
        (.ok (audio, .elevenlabs, .mp3), 0) from by
      unfold attemptProvider generateSpeechElevenLabs
      simp [hkey, hok]]

/-- Witness for `C1_quota_fallback` at a concrete configuration and quota
failure. -/
theorem C1_quota_fallback_witness :
    ((generateSpeechElevenLabs ⟨.elevenlabs, true, true⟩
        ⟨.httpError 429 "quota exceeded".data, .error "piper failed".data,
          .error "macos failed".data, .ok ()⟩ 0).2 = ELEVENLABS_MAX_FAILS)
    ∧ (ELEVENLABS_MAX_FAILS ≤ (generateSpeech ⟨.elevenlabs, true, true⟩
        ⟨.httpError 429 "quota exceeded".data, .error "piper failed".data,
          .error "macos failed".data, .ok ()⟩ 0).2)
    ∧ (TTSProvider.elevenlabs ∉ buildProviders ⟨.elevenlabs, true, true⟩ 3
        ∧ ((buildProviders ⟨.elevenlabs, true, true⟩ 3).head? = some TTSProvider.piper ∨
            (buildProviders ⟨.elevenlabs, true, true⟩ 3).head? = some TTSProvider.macos)
        ∧ (generateSpeech ⟨.elevenlabs, true, true⟩
            ⟨.httpError 429 "quota exceeded".data, .error "piper failed".data,
              .error "macos failed".data, .ok ()⟩ 3).2 = 3)
    ∧ (generateSpeech ⟨.elevenlabs, true, true⟩
        ⟨.ok 7, .error "piper failed".data, .error "macos failed".data, .ok ()⟩ 0 =
        (.ok (7, .elevenlabs, .mp3), 0)) := by
  refine ⟨?_, ?_, ?_, ?_⟩
  · exact C1_quota_fallback.1 _ _ 0 429 "quota exceeded".data rfl rfl (Or.inl rfl)
  · exact C1_quota_fallback.2.1 _ _ 0 429 "quota exceeded".data rfl rfl (by decide) rfl
      (Or.inl rfl)
  · exact C1_quota_fallback.2.2.1 _ _ 3 (by decide)
  · exact C1_quota_fallback.2.2.2 _ _ 0 7 rfl rfl (by decide) rfl

/-! Claim C3. -/

/-- When every provider attempt fails, the cascade ends with the error of
the last provider in the list. -/
theorem runCascade_all_fail (cfg : TTSConfig) (att : TTSAttempts)
    (f : TTSProvider → List Char)
    (hf : ∀ p c, (attemptProvider cfg att c p).1 = .error (f p)) :
    ∀ (qs : List TTSProvider) (q : TTSProvider) (le : Option (List Char)) (c : Nat),
      (runCascade cfg att (qs ++ [q]) le c).1 = .error (f q) := by
  intro qs
  induction qs with
  | nil =>
    intro q le c
    have hfq := hf q c
    unfold runCascade
    simp only [List.nil_append]
    rcases hp : attemptProvider cfg att c q with ⟨r, c'⟩
    rw [hp] at hfq
    cases r with
    | ok v => simp at hfq
    | error e =>
      simp at hfq
      subst hfq
      simp [hp, runCascade]
  | cons p ps ih =>
    intro q le c
    have hfp := hf p c
    unfold runCascade
    simp only [List.cons_append]
    rcases hp : attemptProvider cfg att c p with ⟨r, c'⟩
    rw [hp] at hfp
    cases r with
    | ok v => simp at hfp
    | error e =>
      simp at hfp
      subst hfp
      simp [hp, ih]

/-- When all three provider calls fail, `generateSpeech` throws the last
provider's (macOS's) error. -/
theorem generateSpeech_all_fail (cfg : TTSConfig) (att : TTSAttempts)
    (sE : Nat) (bE eP eM : List Char)
    (hE : att.elevenlabs = .httpError sE bE) (hP : att.piper = .error eP)
    (hM : att.macos = .error eM) (c : Nat) :
    (generateSpeech cfg att c).1 = .error eM := by
  have hf : ∀ p c', (attemptProvider cfg att c' p).1 = .error
      (match p with
        | TTSProvider.elevenlabs =>
          if cfg.hasApiKey then
            "ElevenLabs API error: ".data ++ (toString sE).data ++ " - ".data ++ bE
          else "ElevenLabs API key not configured".data
        | TTSProvider.piper => eP
        | TTSProvider.macos => eM) := by
    intro p c'
    cases p with
    | elevenlabs =>
      unfold attemptProvider generateSpeechElevenLabs
      cases hk : cfg.hasApiKey with
      | false => simp [hk]
      | true => simp [hk, hE]
    | piper => simp [attemptProvider, hP]
    | macos => simp [attemptProvider, hM]
  unfold generateSpeech buildProviders
  exact runCascade_all_fail cfg att _ hf _ TTSProvider.macos none c

/-- With valid inputs, voice enabled and all providers failing,
`sendNotification` swallows the macOS error and appends one error-log entry
carrying the timestamp, the error and the spoken message. -/
theorem sendNotification_all_fail_log (cfg : TTSConfig) (att : TTSAttempts)
    (nowIso : List Char) (title message : JSVal) (count : Nat)
    (sE : Nat) (bE eP eM : List Char)
    (ht : (validateInput title).valid = true)
    (hm : (validateInput message).valid = true)
    (hE : att.elevenlabs = .httpError sE bE) (hP : att.piper = .error eP)
    (hM : att.macos = .error eM) :
    sendNotification cfg att nowIso title message true count =
      { result := .ok (),
        log := [nowIso ++ " - TTS Error: ".data ++ eM ++ "\nMessage: ".data ++
          (extractEmotionalMarker ((validateInput message).sanitized.getD [])).1 ++
          "\n\n".data],
        failCount := (generateSpeech cfg att count).2 } := by
  have hfail := generateSpeech_all_fail cfg att sE bE eP eM hE hP hM count
  unfold sendNotification
  simp only [ht, hm, Bool.not_true, Bool.false_eq_true, if_false, if_true]
  rcases hg : generateSpeech cfg att count with ⟨r, c'⟩
  rw [hg] at hfail
  dsimp at hfail
  subst hfail
  simp [hg]

/-- C3: for a POST /notify request that passes validation and has voice
enabled, if every TTS provider throws, the last (macOS) provider's error is
caught, appended to the error log with the ISO timestamp and the message
text, and not propagated: the handler still returns 200 with
status "success". -/
theorem C3_tts_failure_logged (env : ServerEnv) (st : ServerState)
    (ff : Option (List Char)) (data : NotifyData)
    (sE : Nat) (bE eP eM : List Char)
    (hrl : (checkRateLimit env.now st.rates
      (clientIpOf ⟨"POST".data, "/notify".data, ff, .ok data⟩)).1 = true)
    (ht : (validateInput (jsOr data.title (.str "PAI Notification".data))).valid = true)
    (hm : (validateInput (jsOr data.message (.str "Task completed".data))).valid = true)
    (hv : (jsOr data.voice_id (jsOr data.voice_name .jsNull)).truthy = true →
      (jsOr data.voice_id (jsOr data.voice_name .jsNull)).isStr = true)
    (hve : data.voice_enabled ≠ JSVal.bool false)
    (hE : env.att.elevenlabs = .httpError sE bE)
    (hP : env.att.piper = .error eP)
    (hM : env.att.macos = .error eM) :
    ((handleRequest env st ⟨"POST".data, "/notify".data, ff, .ok data⟩).1.status = 200
      ∧ (handleRequest env st ⟨"POST".data, "/notify".data, ff, .ok data⟩).1.body =
        .json "success".data "Notification sent".data
      ∧ (handleRequest env st ⟨"POST".data, "/notify".data, ff, .ok data⟩).2.errorLog =
        st.errorLog ++ [env.nowIso ++ " - TTS Error: ".data ++ eM ++ "\nMessage: ".data ++
          (extractEmotionalMarker ((validateInput (jsOr data.message
            (.str "Task completed".data))).sanitized.getD [])).1 ++ "\n\n".data]) := by
  have hvb : ((jsOr data.voice_id (jsOr data.voice_name .jsNull)).truthy &&
      !(jsOr data.voice_id (jsOr data.voice_name .jsNull)).isStr) = false := by
    cases hvt : (jsOr data.voice_id (jsOr data.voice_name .jsNull)).truthy with
    | false => simp
    | true => simp [hv hvt]
  have hveb : (!decide (data.voice_enabled = JSVal.bool false)) = true := by
    simp [hve]
  have hms : (jsOr data.message (.str "Task completed".data)).isStr = true :=
    validateInput_valid_isStr hm
  have hsend := sendNotification_all_fail_log env.cfg env.att env.nowIso
    (jsOr data.title (.str "PAI Notification".data))
    (jsOr data.message (.str "Task completed".data))
    st.failCount sE bE eP eM ht hm hE hP hM
  rw [handleRequest_notify env st ff (.ok data) hrl]
  unfold handleNotify
  simp only [hvb, Bool.false_eq_true, if_false, hms, Bool.not_true]
  simp only [ne_eq, decide_not, hveb]
  try dsimp only
  rw [hsend]
  exact ⟨rfl, rfl, rfl⟩

/-- Witness for `C3_tts_failure_logged` at a concrete request where every
provider fails. -/
theorem C3_tts_failure_logged_witness :
    ((handleRequest ⟨0, "2026-01-01T00:00:00Z".data, ⟨.elevenlabs, true, true⟩,
        ⟨.httpError 500 "server error".data, .error "piper failed".data,
          .error "macos failed".data, .ok ()⟩⟩
      ⟨[], 0, []⟩ ⟨"POST".data, "/notify".data, none,
        .ok ⟨.undef, .undef, .undef, .undef, .undef⟩⟩).1.status = 200
    ∧ (handleRequest ⟨0, "2026-01-01T00:00:00Z".data, ⟨.elevenlabs, true, true⟩,
        ⟨.httpError 500 "server error".data, .error "piper failed".data,
          .error "macos failed".data, .ok ()⟩⟩
      ⟨[], 0, []⟩ ⟨"POST".data, "/notify".data, none,
        .ok ⟨.undef, .undef, .undef, .undef, .undef⟩⟩).2.errorLog =
      ["2026-01-01T00:00:00Z - TTS Error: macos failed\nMessage: Task completed\n\n".data]) := by
  have h := C3_tts_failure_logged
    ⟨0, "2026-01-01T00:00:00Z".data, ⟨.elevenlabs, true, true⟩,
      ⟨.httpError 500 "server error".data, .error "piper failed".data,
        .error "macos failed".data, .ok ()⟩⟩
    ⟨[], 0, []⟩ none ⟨.undef, .undef, .undef, .undef, .undef⟩
    500 "server error".data "piper failed".data "macos failed".data
    (by decide) (by decide) (by decide) (by decide) (by decide) rfl rfl rfl
  exact ⟨h.1, h.2.2.trans (by decide)⟩

/-! Claim C4. -/

/-- The sanitizer's output never exceeds 500 characters. -/
theorem sanitizeForSpeech_length_le (input : List Char) :
    (sanitizeForSpeech input).length ≤ 500 := by
  unfold sanitizeForSpeech
  rw [List.length_take]
  exact Nat.min_le_left _ _

/-- C4: `validateInput` rejects non-strings with an error message, rejects
strings longer than 500 characters, rejects strings whose sanitized form is
empty, and otherwise accepts, returning the sanitized string, which is at
most 500 characters long. -/
theorem C4_validate_input (input : JSVal) :
    (input.isStr = false →
      (validateInput input).valid = false ∧ (validateInput input).error.isSome = true)
    ∧ (∀ s, input = .str s → 500 < s.length →
      (validateInput input).valid = false ∧ (validateInput input).error.isSome = true)
    ∧ (∀ s, input = .str s → sanitizeForSpeech s = [] →
      (validateInput input).valid = false ∧ (validateInput input).error.isSome = true)
    ∧ (∀ s, input = .str s → s.length ≤ 500 → sanitizeForSpeech s ≠ [] →
      (validateInput input =
        { valid := true, error := none, sanitized := some (sanitizeForSpeech s) } ∧
      (sanitizeForSpeech s).length ≤ 500)) := by
  refine ⟨?_, ?_, ?_, ?_⟩
  · intro hns
    cases input with
    | str s => simp [JSVal.isStr] at hns
    | undef => simp [validateInput]
    | jsNull => simp [validateInput]
    | bool b => simp [validateInput]
    | num n => simp [validateInput]
    | obj => simp [validateInput]
  · rintro s rfl hlen
    unfold validateInput
    dsimp only
    have hs : s ≠ [] := by
      intro h
      subst h
      simp at hlen
    rw [if_neg hs, if_pos (by omega : s.length > 500)]
    simp
  · rintro s rfl hsan
    unfold validateInput
    dsimp only
    by_cases hs : s = []
    · subst hs
      simp
    · rw [if_neg hs]
      by_cases hlen : s.length > 500
      · rw [if_pos hlen]
        simp
      · rw [if_neg hlen]
        try dsimp only
        rw [if_pos hsan]
        simp
  · rintro s rfl hlen hsan
    have hs : s ≠ [] := by
      intro h
      subst h
      exact hsan rfl
    unfold validateInput
    dsimp only
    rw [if_neg hs, if_neg (by omega : ¬ s.length > 500)]
    try dsimp only
    rw [if_neg hsan]
    exact ⟨rfl, sanitizeForSpeech_length_le s⟩

/-- Witness for `C4_validate_input` at four concrete inputs, one per
clause. -/
theorem C4_validate_input_witness :
    ((validateInput (.num 3)).valid = false)
    ∧ ((validateInput (.str (List.replicate 501 'a'))).valid = false)
    ∧ ((validateInput (.str " ".data)).valid = false)
    ∧ (validateInput (.str "  hi  ".data) =
        { valid := true, error := none, sanitized := some "hi".data }) := by
  refine ⟨?_, ?_, ?_, ?_⟩
  · exact ((C4_validate_input (.num 3)).1 (by decide)).1
  · exact ((C4_validate_input _).2.1 (List.replicate 501 'a') rfl (by rw [List.length_replicate]; omega)).1
  · exact ((C4_validate_input _).2.2.1 " ".data rfl (by decide)).1
  · exact (((C4_validate_input _).2.2.2 "  hi  ".data rfl (by decide) (by decide)).1).trans
      (by decide)

/-! Claim C8. -/

/-- Characters of the script-strip output come from the input. -/
theorem mem_stripScriptTagGo {c : Char} :
    ∀ (fuel : Nat) (l : List Char), c ∈ stripScriptTagGo fuel l → c ∈ l := by
  intro fuel
  induction fuel with
  | zero =>
    intro l h
    simpa [stripScriptTagGo] using h
  | succ n ih =>
    intro l h
    cases l with
    | nil => simpa [stripScriptTagGo] using h
    | cons a as =>
      unfold stripScriptTagGo at h
      by_cases hp : isPrefixCI scriptPat (a :: as) = true
      · rw [if_pos hp] at h
        exact List.mem_cons_of_mem a (List.mem_of_mem_drop (ih _ h))
      · rw [if_neg hp] at h
        rcases List.mem_cons.mp h with h1 | h1
        · simp [h1]
        · exact List.mem_cons_of_mem a (ih _ h1)

/-- Characters of the `../`-strip output come from the input. -/
theorem mem_stripDotDotSlashGo {c : Char} :
    ∀ (fuel : Nat) (l : List Char), c ∈ stripDotDotSlashGo fuel l → c ∈ l := by
  intro fuel
  induction fuel with
  | zero =>
    intro l h
    simpa [stripDotDotSlashGo] using h
  | succ n ih =>
    intro l h
    cases l with
    | nil => simpa [stripDotDotSlashGo] using h
    | cons a as =>
      unfold stripDotDotSlashGo at h
      by_cases hp : List.isPrefixOf "../".data (a :: as) = true
      · rw [if_pos hp] at h
        exact List.mem_cons_of_mem a (List.mem_of_mem_drop (ih _ h))
      · rw [if_neg hp] at h
        rcases List.mem_cons.mp h with h1 | h1
        · simp [h1]
        · exact List.mem_cons_of_mem a (ih _ h1)

/-- Characters of the single-delimiter unquoting come from the input. -/
theorem mem_unquote1Go {c d : Char} :
    ∀ (fuel : Nat) (l : List Char), c ∈ unquote1Go d fuel l → c ∈ l := by
  intro fuel
  induction fuel with
  | zero =>
    intro l h
    simpa [unquote1Go] using h
  | succ n ih =>
    intro l h
    cases l with
    | nil => simpa [unquote1Go] using h
    | cons a as =>
      unfold unquote1Go at h
      by_cases ha : a = d
      · rw [if_pos ha] at h
        dsimp only at h
        rcases hafter : as.dropWhile (fun x => x ≠ d) with _ | ⟨hd, tl⟩ <;>
          rw [hafter] at h <;> try dsimp only at h
        · rcases List.mem_cons.mp h with h1 | h1
          · simp [h1]
          · exact List.mem_cons_of_mem a (ih _ h1)
        · by_cases hinner : as.takeWhile (fun x => x ≠ d) = []
          · rw [if_pos hinner] at h
            rcases List.mem_cons.mp h with h1 | h1
            · simp [h1]
            · exact List.mem_cons_of_mem a (ih _ h1)
          · rw [if_neg hinner] at h
            rcases List.mem_append.mp h with h1 | h1
            · exact List.mem_cons_of_mem a ((List.takeWhile_sublist _).mem h1)
            · have h2 : c ∈ hd :: tl := List.mem_cons_of_mem hd (ih _ h1)
              rw [← hafter] at h2
              exact List.mem_cons_of_mem a ((List.dropWhile_sublist _).mem h2)
      · rw [if_neg ha] at h
        rcases List.mem_cons.mp h with h1 | h1
        · simp [h1]
        · exact List.mem_cons_of_mem a (ih _ h1)

/-- Characters of the double-delimiter unquoting come from the input. -/
theorem mem_unquote2Go {c d : Char} :
    ∀ (fuel : Nat) (l : List Char), c ∈ unquote2Go d fuel l → c ∈ l := by
  intro fuel
  induction fuel with
  | zero =>
    intro l h
    simpa [unquote2Go] using h
  | succ n ih =>
    intro l h
    match l with
    | [] => simpa [unquote2Go] using h
    | [a] => simpa [unquote2Go] using h
    | a1 :: a2 :: as =>
      unfold unquote2Go at h
      by_cases ha : (a1 = d && a2 = d) = true
      · rw [if_pos ha] at h
        dsimp only at h
        rcases hafter : as.dropWhile (fun x => x ≠ d) with _ | ⟨hd, tl⟩ <;>
          rw [hafter] at h <;> try dsimp only at h
        · rcases List.mem_cons.mp h with h1 | h1
          · simp [h1]
          · exact List.mem_cons_of_mem a1 (ih _ h1)
        · rcases tl with _ | ⟨hd2, tl2⟩ <;> try dsimp only at h
          · rcases List.mem_cons.mp h with h1 | h1
            · simp [h1]
            · exact List.mem_cons_of_mem a1 (ih _ h1)
          · by_cases hcond : (as.takeWhile (fun x => x ≠ d) = [] || !(hd2 = d)) = true
            · rw [if_pos hcond] at h
              rcases List.mem_cons.mp h with h1 | h1
              · simp [h1]
              · exact List.mem_cons_of_mem a1 (ih _ h1)
            · rw [if_neg hcond] at h
              rcases List.mem_append.mp h with h1 | h1
              · exact List.mem_cons_of_mem a1 (List.mem_cons_of_mem a2
                  ((List.takeWhile_sublist _).mem h1))
              · have h2 : c ∈ hd :: hd2 :: tl2 :=
                  List.mem_cons_of_mem hd (List.mem_cons_of_mem hd2 (ih _ h1))
                rw [← hafter] at h2
                exact List.mem_cons_of_mem a1 (List.mem_cons_of_mem a2
                  ((List.dropWhile_sublist _).mem h2))
      · rw [if_neg ha] at h
        rcases List.mem_cons.mp h with h1 | h1
        · simp [h1]
        · exact List.mem_cons_of_mem a1 (ih _ h1)

/-- Characters of the heading removal come from the input. -/
theorem mem_unheadingGo {c : Char} :
    ∀ (fuel : Nat) (l : List Char), c ∈ unheadingGo fuel l → c ∈ l := by
  intro fuel
  induction fuel with
  | zero =>
    intro l h
    simpa [unheadingGo] using h
  | succ n ih =>
    intro l h
    cases l with
    | nil => simpa [unheadingGo] using h
    | cons a as =>
      unfold unheadingGo at h
      by_cases ha : a = '#'
      · rw [if_pos ha] at h
        dsimp only at h
        rcases hrest : as.dropWhile (fun x => x = '#') with _ | ⟨t, ts⟩ <;>
          rw [hrest] at h <;> try dsimp only at h
        · rcases List.mem_cons.mp h with h1 | h1
          · simp [h1]
          · exact List.mem_cons_of_mem a (ih _ h1)
        · by_cases hcond : ((as.takeWhile (fun x => x = '#')).length + 1 ≤ 6 &&
              isSpaceChar t) = true
          · rw [if_pos hcond] at h
            have h2 : c ∈ ts.dropWhile isSpaceChar := ih _ h
            have h3 : c ∈ t :: ts :=
              List.mem_cons_of_mem t ((List.dropWhile_sublist _).mem h2)
            rw [← hrest] at h3
            exact List.mem_cons_of_mem a ((List.dropWhile_sublist _).mem h3)
          · rw [if_neg hcond] at h
            rcases List.mem_cons.mp h with h1 | h1
            · simp [h1]
            · exact List.mem_cons_of_mem a (ih _ h1)
      · rw [if_neg ha] at h
        rcases List.mem_cons.mp h with h1 | h1
        · simp [h1]
        · exact List.mem_cons_of_mem a (ih _ h1)

/-- Characters of the trimmed string come from the input. -/
theorem mem_trimChars {c : Char} (l : List Char) (h : c ∈ trimChars l) : c ∈ l := by
  unfold trimChars at h
  rw [List.mem_reverse] at h
  have h2 := (List.dropWhile_sublist _).mem h
  rw [List.mem_reverse] at h2
  exact (List.dropWhile_sublist _).mem h2

/-- No shell metacharacter survives the sanitizer. -/
theorem sanitize_no_meta {c : Char} (input : List Char)
    (h : c ∈ sanitizeForSpeech input) : ¬ c ∈ metaChars := by
  unfold sanitizeForSpeech unheading unquote1 unquote2 at h
  have h1 := List.mem_of_mem_take h
  have h2 := mem_trimChars _ h1
  have h3 := mem_unheadingGo _ _ h2
  have h4 := mem_unquote1Go _ _ h3
  have h5 := mem_unquote1Go _ _ h4
  have h6 := mem_unquote2Go _ _ h5
  have h7 := (List.mem_filter.mp h6).2
  intro hc
  have h8 : ¬ c ∈ metaChars := by simpa using h7
  exact h8 hc

/-- A string without `<` admits no case-insensitive `<script` match. -/
theorem hasSubstrCI_script_eq_false {l : List Char} (h : ¬ '<' ∈ l) :
    hasSubstrCI scriptPat l = false := by
  induction l with
  | nil => rfl
  | cons a as ih =>
    have ha : ¬ a = '<' := fun he => h (by simp [he])
    have has : ¬ '<' ∈ as := fun hm => h (by simp [hm])
    have hlb : isLowerAlpha '<' = false := by decide
    unfold hasSubstrCI
    rw [ih has]
    simp [scriptPat, isPrefixCI, ciMatch, hlb, ha]

/-- C8: on any message containing the script payload and the shell
substitution payload, the sanitizer (a total function — it cannot throw)
produces output with no case-insensitive `<script` opener and no `$`
metacharacter. -/
theorem C8_sanitizer_safety (msg : List Char)
    (h1 : hasSubstr "<script>alert(1)</script>".data msg = true)
    (h2 : hasSubstr "$(rm -rf /)".data msg = true) :
    hasSubstrCI scriptPat (sanitizeForSpeech msg) = false
    ∧ ¬ '$' ∈ sanitizeForSpeech msg := by
  constructor
  · apply hasSubstrCI_script_eq_false
    intro hmem
    exact sanitize_no_meta msg hmem (by decide)
  · intro hmem
    exact sanitize_no_meta msg hmem (by decide)

/-- Witness for `C8_sanitizer_safety` at the claim's payload. -/
theorem C8_sanitizer_safety_witness :
    hasSubstrCI scriptPat (sanitizeForSpeech
      "run <script>alert(1)</script> now $(rm -rf /) end".data) = false
    ∧ ¬ '$' ∈ sanitizeForSpeech
      "run <script>alert(1)</script> now $(rm -rf /) end".data :=
  C8_sanitizer_safety _ (by decide) (by decide)

/-! Claim C7. -/

/-- Absence of heading markup in the sense of the heading regex: no `#`
immediately followed by white space anywhere in the string. -/
def noHashWs : List Char → Bool
  | [] => true
  | [_] => true
  | a :: b :: cs => !(a = '#' && isSpaceChar b) && noHashWs (b :: cs)

/-- The tail of a heading-free string is heading-free. -/
theorem noHashWs_tail {a : Char} {cs : List Char} (h : noHashWs (a :: cs) = true) :
    noHashWs cs = true := by
  cases cs with
  | nil => rfl
  | cons b cs' =>
    unfold noHashWs at h
    exact (Bool.and_eq_true_iff.mp h).2

/-- In a heading-free string, the character that ends a `#` run is not
white space. -/
theorem noHashWs_after_run {xs : List Char} :
    noHashWs ('#' :: xs) = true → ∀ t ts, xs.dropWhile (fun x => x = '#') = t :: ts →
      isSpaceChar t = false := by
  induction xs with
  | nil =>
    intro _ t ts hdrop
    simp [List.dropWhile] at hdrop
  | cons y ys ih =>
    intro h t ts hdrop
    have hps : isSpaceChar y = false ∧ noHashWs (y :: ys) = true := by
      simpa [noHashWs] using h
    by_cases hy : y = '#'
    · subst hy
      rw [List.dropWhile_cons_of_pos (by simp)] at hdrop
      have h' : noHashWs ('#' :: ys) = true := noHashWs_tail h
      exact ih h' t ts hdrop
    · rw [List.dropWhile_cons_of_neg (by simp [hy])] at hdrop
      cases hdrop
      exact hps.1

/-- Without `<` the script-strip is the identity. -/
theorem stripScriptTagGo_id :
    ∀ (fuel : Nat) (l : List Char), ¬ '<' ∈ l → stripScriptTagGo fuel l = l := by
  intro fuel
  induction fuel with
  | zero => intro l _; rfl
  | succ n ih =>
    intro l h
    cases l with
    | nil => rfl
    | cons a as =>
      have ha : ¬ a = '<' := fun he => h (by simp [he])
      have hlb : isLowerAlpha '<' = false := by decide
      unfold stripScriptTagGo
      rw [if_neg (by simp [scriptPat, isPrefixCI, ciMatch, hlb, ha])]
      rw [ih as (fun hm => h (by simp [hm]))]

/-- Without an occurrence of `../` the dot-dot-slash strip is the
identity. -/
theorem stripDotDotSlashGo_id :
    ∀ (fuel : Nat) (l : List Char), hasSubstr "../".data l = false →
      stripDotDotSlashGo fuel l = l := by
  intro fuel
  induction fuel with
  | zero => intro l _; rfl
  | succ n ih =>
    intro l h
    cases l with
    | nil => rfl
    | cons a as =>
      unfold hasSubstr at h
      rcases Bool.or_eq_false_iff.mp h with ⟨h1, h2⟩
      unfold stripDotDotSlashGo
      rw [if_neg (by simp [h1]), ih as h2]

/-- Without metacharacters the metacharacter filter is the identity. -/
theorem removeMeta_id (l : List Char) (h : ∀ c ∈ l, ¬ c ∈ metaChars) :
    removeMeta l = l := by
  unfold removeMeta
  apply List.filter_eq_self.mpr
  intro a ha
  simp only [Bool.not_eq_true']
  simp
  exact h a ha

/-- Without the delimiter the single-delimiter unquoting is the identity. -/
theorem unquote1Go_id (d : Char) :
    ∀ (fuel : Nat) (l : List Char), ¬ d ∈ l → unquote1Go d fuel l = l := by
  intro fuel
  induction fuel with
  | zero => intro l _; rfl
  | succ n ih =>
    intro l h
    cases l with
    | nil => rfl
    | cons a as =>
      have ha : ¬ a = d := fun he => h (by simp [he])
      unfold unquote1Go
      rw [if_neg ha, ih as (fun hm => h (by simp [hm]))]

/-- Without the delimiter the double-delimiter unquoting is the identity. -/
theorem unquote2Go_id (d : Char) :
    ∀ (fuel : Nat) (l : List Char), ¬ d ∈ l → unquote2Go d fuel l = l := by
  intro fuel
  induction fuel with
  | zero => intro l _; rfl
  | succ n ih =>
    intro l h
    match l with
    | [] => rfl
    | [a] => rfl
    | a1 :: a2 :: as =>
      have ha : ¬ a1 = d := fun he => h (by simp [he])
      unfold unquote2Go
      rw [if_neg (by simp [ha]), ih (a2 :: as) (fun hm => h (by simp at hm; simp [hm]))]

/-- On a heading-free string the heading removal is the identity. -/
theorem unheadingGo_id :
    ∀ (fuel : Nat) (l : List Char), noHashWs l = true → unheadingGo fuel l = l := by
  intro fuel
  induction fuel with
  | zero => intro l _; rfl
  | succ n ih =>
    intro l h
    cases l with
    | nil => rfl
    | cons a as =>
      have htail := noHashWs_tail h
      by_cases ha : a = '#'
      · subst ha
        unfold unheadingGo
        rw [if_pos rfl]
        dsimp only
        rcases hrest : as.dropWhile (fun x => x = '#') with _ | ⟨t, ts⟩ <;>
          try dsimp only
        · rw [ih as htail]
        · have hws := noHashWs_after_run h t ts hrest
          rw [if_neg (by simp [hws])]
          rw [ih as htail]
      · unfold unheadingGo
        rw [if_neg ha, ih as htail]

/-- Trimming never lengthens a string. -/
theorem trimChars_length_le (l : List Char) : (trimChars l).length ≤ l.length := by
  unfold trimChars
  rw [List.length_reverse]
  calc ((l.dropWhile isSpaceChar).reverse.dropWhile isSpaceChar).length
      ≤ (l.dropWhile isSpaceChar).reverse.length := (List.dropWhile_sublist _).length_le
    _ = (l.dropWhile isSpaceChar).length := List.length_reverse _
    _ ≤ l.length := (List.dropWhile_sublist _).length_le

/-- C7 (amended): a message of at most 500 characters with no unsafe
content — no shell metacharacters (which also rules out `<script` openers
and back-tick code markup), no `../` sequence, no `*` emphasis markup, no
heading marker — and with a nonempty trimmed form is returned by
sanitize-then-validate unchanged except for white-space trimming. -/
theorem C7_roundtrip (msg : List Char)
    (hmeta : ∀ c ∈ msg, ¬ c ∈ metaChars)
    (hdots : hasSubstr "../".data msg = false)
    (hstar : ¬ '*' ∈ msg)
    (hheading : noHashWs msg = true)
    (hlen : msg.length ≤ 500)
    (hne : trimChars msg ≠ []) :
    validateInput (.str msg) =
      { valid := true, error := none, sanitized := some (trimChars msg) } := by
  have hlt : ¬ '<' ∈ msg := fun h => hmeta _ h (by decide)
  have hbt : ¬ (Char.ofNat 96) ∈ msg := fun h => hmeta _ h (by decide)
  have hsan : sanitizeForSpeech msg = trimChars msg := by
    unfold sanitizeForSpeech stripScriptTag stripDotDotSlash unquote1 unquote2 unheading
    rw [stripScriptTagGo_id _ _ hlt, stripDotDotSlashGo_id _ _ hdots,
      removeMeta_id _ hmeta, unquote2Go_id _ _ _ hstar, unquote1Go_id _ _ _ hstar,
      unquote1Go_id _ _ _ hbt, unheadingGo_id _ _ hheading]
    exact List.take_of_length_le (le_trans (trimChars_length_le msg) hlen)
  have hmsgne : msg ≠ [] := by
    intro h
    subst h
    exact hne rfl
  unfold validateInput
  dsimp only
  rw [if_neg hmsgne, if_neg (by omega : ¬ msg.length > 500)]
  rw [hsan, if_neg hne]

/-- Witness for `C7_roundtrip` at a concrete clean message. -/
theorem C7_roundtrip_witness :
    validateInput (.str "  hello world  ".data) =
      { valid := true, error := none, sanitized := some "hello world".data } :=
  (C7_roundtrip "  hello world  ".data (by decide) (by decide) (by decide)
    (by decide) (by decide) (by decide)).trans (by decide)

/-- C7 counterexample: the all-whitespace message `" "` has no unsafe
content and is within the length bound, yet sanitize-then-validate rejects
it (valid = false) instead of returning its trimmed form. -/
theorem C7_counterexample :
    (validateInput (.str " ".data)).valid = false
    ∧ (∀ c ∈ " ".data, ¬ c ∈ metaChars)
    ∧ hasSubstr "../".data " ".data = false
    ∧ ¬ '*' ∈ " ".data
    ∧ noHashWs " ".data = true
    ∧ " ".data.length ≤ 500 := by
  refine ⟨by decide, by decide, by decide, by decide, by decide, by decide⟩

/-! Claim C6. -/

/-- `findTag` returns exactly the leftmost position's tag match. -/
theorem findTag_some_iff (r : List Char × List Char × List Char) :
    ∀ msg : List Char, findTag msg = some r ↔
      ∃ i, matchTagAt (msg.drop i) = some r ∧ ∀ j < i, matchTagAt (msg.drop j) = none := by
  intro msg
  induction msg with
  | nil =>
    constructor
    · intro h
      simp [findTag] at h
    · rintro ⟨i, hi, -⟩
      rw [List.drop_nil] at hi
      simp [matchTagAt] at hi
  | cons c cs ih =>
    unfold findTag
    cases hm : matchTagAt (c :: cs) with
    | some r' =>
      constructor
      · intro h
        refine ⟨0, ?_, ?_⟩
        · rw [List.drop_zero, hm]
          exact h
        · intro j hj
          omega
      · rintro ⟨i, hi, hmin⟩
        cases i with
        | zero =>
          rw [List.drop_zero, hm] at hi
          exact hi
        | succ i' =>
          have h0 := hmin 0 (by omega)
          rw [List.drop_zero, hm] at h0
          cases h0
    | none =>
      constructor
      · intro h
        rcases ih.mp h with ⟨i, hi, hmin⟩
        refine ⟨i + 1, ?_, ?_⟩
        · simpa using hi
        · intro j hj
          cases j with
          | zero => simpa using hm
          | succ j' =>
            have := hmin j' (by omega)
            simpa using this
      · rintro ⟨i, hi, hmin⟩
        cases i with
        | zero =>
          rw [List.drop_zero, hm] at hi
          cases hi
        | succ i' =>
          apply ih.mpr
          refine ⟨i', by simpa using hi, ?_⟩
          intro j hj
          have := hmin (j + 1) (by omega)
          simpa using this

/-- C6 (amended): the extractor returns an emotion hint exactly when the
leftmost tag-shaped match `[emoji label]` in the message has a lowercased
label equal to the emoji's emotion in the table; in that case the cleaned
text is the message with that match's first occurrence removed and trimmed,
and in every other case — no tag match anywhere, or a disagreeing leftmost
match, even if an agreeing tag occurs further right — the message is
returned untouched with no emotion. -/
theorem C6_emotion_extraction (msg : List Char) :
    (∀ i w n lb, (∀ j < i, matchTagAt (msg.drop j) = none) →
      matchTagAt (msg.drop i) = some (w, n, lb) →
      ((lb.map Char.toLower = n →
        extractEmotionalMarker msg = (trimChars (removeFirst w msg), some n))
      ∧ (lb.map Char.toLower ≠ n → extractEmotionalMarker msg = (msg, none))))
    ∧ ((∀ j, matchTagAt (msg.drop j) = none) →
      extractEmotionalMarker msg = (msg, none)) := by
  constructor
  · intro i w n lb hmin hi
    have hfind : findTag msg = some (w, n, lb) :=
      (findTag_some_iff _ msg).mpr ⟨i, hi, hmin⟩
    constructor
    · intro hagree
      unfold extractEmotionalMarker
      rw [hfind]
      simp [hagree]
    · intro hdis
      unfold extractEmotionalMarker
      rw [hfind]
      simp [hdis]
  · intro hall
    have hfind : findTag msg = none := by
      cases hf : findTag msg with
      | none => rfl
      | some r =>
        rcases (findTag_some_iff r msg).mp hf with ⟨i, hi, -⟩
        rw [hall i] at hi
        cases hi
    unfold extractEmotionalMarker
    rw [hfind]

/-- Witness for `C6_emotion_extraction` on an agreeing tag and on a
tag-free message. -/
theorem C6_emotion_extraction_witness :
    extractEmotionalMarker "go [💥 excited] now".data =
      ("go  now".data, some "excited".data)
    ∧ extractEmotionalMarker "quiet".data = ("quiet".data, none) := by
  constructor
  · exact (((C6_emotion_extraction "go [💥 excited] now".data).1 3
      "[💥 excited]".data "excited".data "excited".data
      (by decide) (by decide)).1 (by decide)).trans (by decide)
  · refine (C6_emotion_extraction "quiet".data).2 ?_
    intro j
    match j with
    | 0 => decide
    | 1 => decide
    | 2 => decide
    | 3 => decide
    | 4 => decide
    | n + 5 =>
      rw [show ("quiet".data.drop (n + 5)) = [] from
        List.drop_eq_nil_of_le (by simp)]
      rfl

/-- C6 counterexample: the message `[💥 wrong] [💥 excited]` contains a
bracketed tag whose emoji and lowercased label agree with the table, yet the
extractor returns the message untouched with no emotion, because the
leftmost tag match (`[💥 wrong]`) disagrees — refuting "exactly when the
message contains" as stated. -/
theorem C6_counterexample :
    extractEmotionalMarker "[💥 wrong] [💥 excited]".data =
      ("[💥 wrong] [💥 excited]".data, none)
    ∧ hasSubstr "[💥 excited]".data "[💥 wrong] [💥 excited]".data = true
    ∧ matchTagAt "[💥 excited]".data =
      some ("[💥 excited]".data, "excited".data, "excited".data) := by
  refine ⟨by decide, by decide, by decide⟩
